import Mathlib

/-!
# Governance message server (`x/gov/keeper/msg_server.go`)

A shallow embedding of the five handlers of `msgServer` and of the four handlers of
`legacyMsgServer`, together with the properties of the handlers.

Conventions of the embedding.

* The Go `sdk.Context` is a value `Context σ`: the state `σ` reached through the context
  (stores, gas meter, event manager; owned by collaborators outside the file) and `calls`,
  the record of the calls the message server itself has made on its collaborators.
* A collaborator that is not defined in `msg_server.go` (the keeper, the legacy router and
  its handlers, the bech32 codec, the gas meter, the event manager, the proposal codec,
  the string constants of `sdk` and of `x/gov/types`) is a field of `Keeper`, `Router`,
  `Sdk` or `GovTypes`; every handler is defined for all values of these fields.
* A Go result `(T, error)` is an `Except Error T`; a Go result `error` is an `Option Error`.
* `uint64` values are natural numbers; the one product computed in `uint64` is reduced
  modulo `2 ^ 64`.
* The deferred `telemetry` counters are not part of the embedding, and neither is the
  unwinding caused by a Go panic.
* The ledgers behind the keeper, the tally engine and the transaction around a handler call
  are not in `msg_server.go`; where a property speaks of them they are definitions marked
  `Modelled from the spec`, over the state `Ledger`.
-/

/-! ## Errors -/

/-- Go `error` values seen by the message server. The first three constructors are the errors
registered by `x/gov/types` that `msg_server.go` names; `other` is any other registered error.
`Wrap err d` is `sdkerrors.Wrap(err, d)`, also `sdkerrors.Wrapf` when every operand is a string
(then `d` is the formatted text). `WrapErr err d operand` is `sdkerrors.Wrapf(err, d ++ "%+v",
operand)`: the last operand is itself an error. `Errorf f err` is `fmt.Errorf(f ++ ": %w", err)`. -/
inductive Error
  | ErrInvalidSigner
  | ErrInvalidProposalContent
  | ErrNoProposalHandlerExists
  | other (codespace : String) (code : Nat) (description : String)
  | Wrap (err : Error) (description : String)
  | WrapErr (err : Error) (description : String) (operand : Error)
  | Errorf (format : String) (err : Error)
  deriving DecidableEq, Repr

/-- The registered error at the root of a chain of `Wrap`/`Wrapf`/`%w` (what `errors.Is` and the
ABCI code of a failed transaction look at). -/
def Error.Cause : Error → Error
  | .Wrap err _ => err.Cause
  | .WrapErr err _ _ => err.Cause
  | .Errorf _ err => err.Cause
  | e => e

deriving instance DecidableEq for Except

/-! ## Data model -/

/-- An `sdk.AccAddress`: a byte string. -/
abbrev AccAddress := List Nat

/-- An `sdk.Coin`. -/
structure Coin where
  Denom : String
  Amount : Int
  deriving DecidableEq, Repr

/-- The type `sdk.Coins`. -/
abbrev Coins := List Coin

/-- An `sdk.Attribute` of an event. -/
structure Attribute where
  Key : String
  Value : String
  deriving DecidableEq, Repr

/-- An `sdk.Event`; `Typ` is the Go field `Type`. -/
structure Event where
  Typ : String
  Attributes : List Attribute
  deriving DecidableEq, Repr

/-- The constructor `sdk.NewAttribute`. -/
def NewAttribute (k v : String) : Attribute := ⟨k, v⟩

/-- The constructor `sdk.NewEvent`. -/
def NewEvent (ty : String) (attrs : List Attribute) : Event := ⟨ty, attrs⟩

/-- A `v1beta1.Content`: the legacy proposal content, seen through the methods of the
interface (`ProposalRoute`, `ProposalType`, `GetTitle`, `GetDescription`). -/
structure Content where
  ProposalRoute : String
  ProposalType : String
  Title : String
  Description : String
  deriving DecidableEq, Repr

/-- An `sdk.Dec`: a fixed-point decimal with 18 fractional digits, held as the integer
`i = value * 10 ^ 18`. -/
structure Dec where
  i : Int
  deriving DecidableEq, Repr

/-- The number of fractional digits of an `sdk.Dec`. -/
def Precision : Nat := 18

/-- The constructor `sdk.NewDec`: the decimal of an integer. -/
def NewDec (n : Int) : Dec := ⟨n * 10 ^ Precision⟩

/-- The constructor `sdk.NewDecWithPrec`: `n / 10 ^ prec`, for `prec ≤ 18`. -/
def NewDecWithPrec (n : Int) (prec : Nat) : Dec := ⟨n * 10 ^ (Precision - prec)⟩

/-- Modelled from the spec: `sdk.Dec.String` (`types/decimal.go`) is not among the sources; the
spec fixes its output as a "fixed 18-fractional-digit decimal string" such as
`"0.334000000000000000"`: the integer part (at least one digit), a point, and exactly 18
fractional digits, with a leading `-` for a negative value. -/
def Dec.String (d : Dec) : String :=
  let digits := Nat.toDigits 10 d.i.natAbs
  let body :=
    if digits.length ≤ Precision then
      '0' :: '.' :: (List.replicate (Precision - digits.length) '0' ++ digits)
    else
      digits.take (digits.length - Precision) ++ '.' :: digits.drop (digits.length - Precision)
  if d.i < 0 then String.mk ('-' :: body) else String.mk body

/-! ## Messages of the two API versions -/

namespace v1beta1

/-- The legacy `VoteOption` enumeration: a protobuf `int32`. -/
structure VoteOption where
  val : Int
  deriving DecidableEq, Repr

/-- The legacy `WeightedVoteOption`: the weight is an `sdk.Dec`. -/
structure WeightedVoteOption where
  Option : VoteOption
  Weight : Dec
  deriving DecidableEq, Repr

/-- The legacy `MsgSubmitProposal`. `Content` is what `GetContent()` returns: the content
cached in the `Any` field, or `none` (Go `nil`) when the field holds no content. -/
structure MsgSubmitProposal where
  Content : Option Content
  InitialDeposit : Coins
  Proposer : String
  deriving DecidableEq, Repr

/-- The legacy `MsgSubmitProposalResponse`. -/
structure MsgSubmitProposalResponse where
  ProposalId : Nat
  deriving DecidableEq, Repr

/-- The legacy `MsgVote`. -/
structure MsgVote where
  ProposalId : Nat
  Voter : String
  Option : VoteOption
  deriving DecidableEq, Repr

/-- The legacy `MsgVoteResponse`. -/
structure MsgVoteResponse where
  deriving DecidableEq, Repr

/-- The legacy `MsgVoteWeighted`. -/
structure MsgVoteWeighted where
  ProposalId : Nat
  Voter : String
  Options : List WeightedVoteOption
  deriving DecidableEq, Repr

/-- The legacy `MsgVoteWeightedResponse`. -/
structure MsgVoteWeightedResponse where
  deriving DecidableEq, Repr

/-- The legacy `MsgDeposit`. -/
structure MsgDeposit where
  ProposalId : Nat
  Depositor : String
  Amount : Coins
  deriving DecidableEq, Repr

/-- The legacy `MsgDepositResponse`. -/
structure MsgDepositResponse where
  deriving DecidableEq, Repr

end v1beta1

namespace v1beta2

/-- The `VoteOption` enumeration: a protobuf `int32`. -/
structure VoteOption where
  val : Int
  deriving DecidableEq, Repr

/-- The Go conversion `v1beta2.VoteOption(o)` of a legacy option: the same number. -/
def VoteOption.ofLegacy (o : v1beta1.VoteOption) : VoteOption := ⟨o.val⟩

/-- The option `VOTE_OPTION_YES`. -/
def OptionYes : VoteOption := ⟨1⟩

/-- The option `VOTE_OPTION_ABSTAIN`. -/
def OptionAbstain : VoteOption := ⟨2⟩

/-- The option `VOTE_OPTION_NO`. -/
def OptionNo : VoteOption := ⟨3⟩

/-- The option `VOTE_OPTION_NO_WITH_VETO`. -/
def OptionNoWithVeto : VoteOption := ⟨4⟩

/-- A `WeightedVoteOption`: the weight is the decimal string of an `sdk.Dec`. -/
structure WeightedVoteOption where
  Option : VoteOption
  Weight : String
  deriving DecidableEq, Repr

/-- The type `WeightedVoteOptions`. -/
abbrev WeightedVoteOptions := List WeightedVoteOption

/-- A `MsgExecLegacyContent`. `Content` is the value cached in the `Any` field read as a
`v1beta1.Content`, or `none` when the field holds no legacy content. -/
structure MsgExecLegacyContent where
  Content : Option Content
  Authority : String
  deriving DecidableEq, Repr

/-- The response `MsgExecLegacyContentResponse`. -/
structure MsgExecLegacyContentResponse where
  deriving DecidableEq, Repr

/-- An `sdk.Msg` carried by a proposal: the synthetic legacy action, or any other message
(known by its type URL, its signers and its bytes). -/
inductive Msg
  | ExecLegacyContent (m : MsgExecLegacyContent)
  | other (typeURL : String) (signers : List String) (value : List Nat)
  deriving DecidableEq, Repr

/-- A `MsgSubmitProposal`. An element of `Messages` is the value cached in an `Any`, or `none`
when the `Any` has no cached value. -/
structure MsgSubmitProposal where
  Messages : List (Option Msg)
  InitialDeposit : Coins
  Proposer : String
  Metadata : List Nat
  deriving DecidableEq, Repr

/-- The response `MsgSubmitProposalResponse`. -/
structure MsgSubmitProposalResponse where
  ProposalId : Nat
  deriving DecidableEq, Repr

/-- A `MsgVote`. -/
structure MsgVote where
  ProposalId : Nat
  Voter : String
  Option : VoteOption
  deriving DecidableEq, Repr

/-- The response `MsgVoteResponse`. -/
structure MsgVoteResponse where
  deriving DecidableEq, Repr

/-- A `MsgVoteWeighted`. -/
structure MsgVoteWeighted where
  ProposalId : Nat
  Voter : String
  Options : WeightedVoteOptions
  deriving DecidableEq, Repr

/-- The response `MsgVoteWeightedResponse`. -/
structure MsgVoteWeightedResponse where
  deriving DecidableEq, Repr

/-- A `MsgDeposit`. -/
structure MsgDeposit where
  ProposalId : Nat
  Depositor : String
  Amount : Coins
  deriving DecidableEq, Repr

/-- The response `MsgDepositResponse`. -/
structure MsgDepositResponse where
  deriving DecidableEq, Repr

/-- The stored `Proposal` record, as far as the message server reads it. -/
structure Proposal where
  ProposalId : Nat
  Messages : List Msg
  Metadata : List Nat
  deriving DecidableEq, Repr

end v1beta2

/-! ## Helpers of `x/gov/types/v1beta2` used by the message server -/

namespace v1beta2

/-- Modelled from the spec: `NewNonSplitVoteOption` (`v1beta2/vote.go`) is not among the
sources; the spec says that the single-option form "is exactly the weighted form with one
entry at weight 1". The weight is the decimal string of `sdk.NewDec(1)`. -/
def NewNonSplitVoteOption (option : VoteOption) : WeightedVoteOptions :=
  [{ Option := option, Weight := (NewDec 1).String }]

/-- Modelled from the spec: `NewLegacyContent` (`v1beta2/msgs.go`) is not among the sources;
the spec says that the legacy content is wrapped into one synthetic action "whose authority
equals the module's account and whose payload is the legacy content". A `nil` content cannot
be packed and is the one input on which the helper fails. -/
def NewLegacyContent (content : Option Content) (authority : String) :
    Except Error MsgExecLegacyContent :=
  match content with
  | none => .error (.other "undefined" 1 "<nil> does not implement proto.Message")
  | some c => .ok { Content := some c, Authority := authority }

/-- Modelled from the spec: `LegacyContentFromMessage` (`v1beta2/msgs.go`) is not among the
sources; it reads back the payload of the synthetic action, "the legacy content", and fails
when the payload is not a legacy content (the spec does not name the error of that case; the
handler wraps whichever it is). -/
def LegacyContentFromMessage (msg : MsgExecLegacyContent) : Except Error Content :=
  match msg.Content with
  | none => .error (.other "sdk" 29 "invalid type")
  | some c => .ok c

/-- Modelled from the spec: `NewMsgSubmitProposal` (`v1beta2/msgs.go`) is not among the
sources; it builds the generalized request `SubmitProposal(actions, metadata, initial_deposit,
proposer)` of the spec, packing each message into an `Any`. -/
def NewMsgSubmitProposal (messages : List Msg) (initialDeposit : Coins) (proposer : String)
    (metadata : List Nat) : Except Error MsgSubmitProposal :=
  .ok { Messages := messages.map some, InitialDeposit := initialDeposit,
        Proposer := proposer, Metadata := metadata }

/-- Unpacking of a list of `Any` values into messages; fails on the first `Any` without a
cached value. -/
def unpackMsgs : List (Option Msg) → Except Error (List Msg)
  | [] => .ok []
  | none :: _ => .error (.other "undefined" 1 "any cached value is nil")
  | some m :: rest =>
    match unpackMsgs rest with
    | .error e => .error e
    | .ok ms => .ok (m :: ms)

/-- Modelled from the spec: `MsgSubmitProposal.GetMsgs` (`v1beta2/msgs.go`) is not among the
sources; it returns the "ordered sequence of opaque executable messages" of the request. -/
def MsgSubmitProposal.GetMsgs (m : MsgSubmitProposal) : Except Error (List Msg) :=
  unpackMsgs m.Messages

end v1beta2

/-! ## Collaborators and the context -/

/-- A call of the message server on one of its collaborators, with the arguments passed. -/
inductive Call
  | GetGovernanceAccount
  | LegacyHandler (route : String) (content : Content)
  | SubmitProposal (messages : List v1beta2.Msg) (metadata : List Nat)
  | AddDeposit (proposalID : Nat) (depositor : AccAddress) (amount : Coins)
  | AddVote (proposalID : Nat) (voter : AccAddress) (options : v1beta2.WeightedVoteOptions)
  | ConsumeGas (amount : Nat) (descriptor : String)
  | EmitEvent (event : Event)
  deriving DecidableEq, Repr

/-- The Go `sdk.Context` handed to a handler: the state behind it and the calls made so far
by the message server, oldest first. -/
structure Context (σ : Type) where
  state : σ
  calls : List Call

/-- A `v1beta1.Handler`: `func(ctx sdk.Context, content Content) error`. -/
abbrev Handler (σ : Type) := σ → Content → Option Error × σ

/-- The interface `v1beta1.Router`, as far as the message server uses it. -/
structure Router (σ : Type) where
  HasRoute : String → Bool
  GetRoute : String → Handler σ

/-- The methods of `keeper.Keeper` that the message server calls, and its `legacyRouter`. -/
structure Keeper (σ : Type) where
  SubmitProposal : σ → List v1beta2.Msg → List Nat → Except Error v1beta2.Proposal × σ
  AddDeposit : σ → Nat → AccAddress → Coins → Except Error Bool × σ
  AddVote : σ → Nat → AccAddress → v1beta2.WeightedVoteOptions → Option Error × σ
  GetGovernanceAccount : σ → AccAddress × σ
  legacyRouter : Router σ

/-- What the message server uses of `sdk`, of `store/types` and of the codec: the bech32 codec
of account addresses, the event manager and the gas meter behind the context, the per-byte
write cost, the proposal serializer, and three string constants. -/
structure Sdk (σ : Type) where
  AccAddressFromBech32 : String → Except Error AccAddress
  AccAddressString : AccAddress → String
  EmitEvent : σ → Event → σ
  ConsumeGas : σ → Nat → String → σ
  WriteCostPerByte : Nat
  Marshal : v1beta2.Proposal → Except Error (List Nat)
  EventTypeMessage : String
  AttributeKeyModule : String
  AttributeKeySender : String

/-- The string constants of `x/gov/types` that the message server uses. -/
structure GovTypes where
  AttributeValueCategory : String
  EventTypeSubmitProposal : String
  EventTypeProposalDeposit : String
  AttributeKeyVotingPeriodStart : String

/-- The type `msgServer`: the keeper, with the packages its methods refer to. -/
structure msgServer (σ : Type) where
  Keeper : Keeper σ
  sdk : Sdk σ
  types : GovTypes

/-! ## Calls on the collaborators, recorded in the context -/

variable {σ : Type}

/-- The call `k.GetGovernanceAccount(ctx).GetAddress()`. -/
def Keeper.callGetGovernanceAccount (k : Keeper σ) (ctx : Context σ) : AccAddress × Context σ :=
  let r := k.GetGovernanceAccount ctx.state
  (r.1, ⟨r.2, ctx.calls ++ [Call.GetGovernanceAccount]⟩)

/-- The call `handler(ctx, content)` of the handler registered for `route`. -/
def callLegacyHandler (handler : Handler σ) (ctx : Context σ) (route : String)
    (content : Content) : Option Error × Context σ :=
  let r := handler ctx.state content
  (r.1, ⟨r.2, ctx.calls ++ [Call.LegacyHandler route content]⟩)

/-- The call `k.Keeper.SubmitProposal(ctx, messages, metadata)`. -/
def Keeper.callSubmitProposal (k : Keeper σ) (ctx : Context σ) (messages : List v1beta2.Msg)
    (metadata : List Nat) : Except Error v1beta2.Proposal × Context σ :=
  let r := k.SubmitProposal ctx.state messages metadata
  (r.1, ⟨r.2, ctx.calls ++ [Call.SubmitProposal messages metadata]⟩)

/-- The call `k.Keeper.AddDeposit(ctx, proposalID, depositor, amount)`. -/
def Keeper.callAddDeposit (k : Keeper σ) (ctx : Context σ) (proposalID : Nat)
    (depositor : AccAddress) (amount : Coins) : Except Error Bool × Context σ :=
  let r := k.AddDeposit ctx.state proposalID depositor amount
  (r.1, ⟨r.2, ctx.calls ++ [Call.AddDeposit proposalID depositor amount]⟩)

/-- The call `k.Keeper.AddVote(ctx, proposalID, voter, options)`. -/
def Keeper.callAddVote (k : Keeper σ) (ctx : Context σ) (proposalID : Nat)
    (voter : AccAddress) (options : v1beta2.WeightedVoteOptions) : Option Error × Context σ :=
  let r := k.AddVote ctx.state proposalID voter options
  (r.1, ⟨r.2, ctx.calls ++ [Call.AddVote proposalID voter options]⟩)

/-- The call `ctx.GasMeter().ConsumeGas(amount, descriptor)`. -/
def Sdk.callConsumeGas (s : Sdk σ) (ctx : Context σ) (amount : Nat) (descriptor : String) :
    Context σ :=
  ⟨s.ConsumeGas ctx.state amount descriptor, ctx.calls ++ [Call.ConsumeGas amount descriptor]⟩

/-- The call `ctx.EventManager().EmitEvent(event)`. -/
def Sdk.callEmitEvent (s : Sdk σ) (ctx : Context σ) (event : Event) : Context σ :=
  ⟨s.EmitEvent ctx.state event, ctx.calls ++ [Call.EmitEvent event]⟩

/-- The statement `addr, _ := sdk.AccAddressFromBech32(str)`: the error is discarded, and on
an error the address is the empty one. -/
def Sdk.addressIgnoringError (s : Sdk σ) (str : String) : AccAddress :=
  match s.AccAddressFromBech32 str with
  | .error _ => []
  | .ok addr => addr

/-- Multiplication of two `uint64` values. -/
def mulUint64 (a b : Nat) : Nat := (a * b) % 2 ^ 64

/-- The text `fmt.Sprintf("%d", n)` of a `uint64`: its decimal digits. -/
def formatUint (n : Nat) : String := Nat.repr n

/-! ## The handlers of `msgServer` -/

namespace msgServer

/-- The generic message event built by four of the handlers:
`NewEvent(EventTypeMessage, (AttributeKeyModule, AttributeValueCategory),
(AttributeKeySender, sender))`. -/
def messageEvent (k : msgServer σ) (sender : String) : Event :=
  NewEvent k.sdk.EventTypeMessage
    [NewAttribute k.sdk.AttributeKeyModule k.types.AttributeValueCategory,
     NewAttribute k.sdk.AttributeKeySender sender]

/-- The handler `msgServer.SubmitProposal`. -/
def SubmitProposal (k : msgServer σ) (ctx : Context σ) (msg : v1beta2.MsgSubmitProposal) :
    Except Error v1beta2.MsgSubmitProposalResponse × Context σ :=
  match msg.GetMsgs with
  | .error err => (.error err, ctx)
  | .ok proposalMsgs =>
    match k.Keeper.callSubmitProposal ctx proposalMsgs msg.Metadata with
    | (.error err, ctx) => (.error err, ctx)
    | (.ok proposal, ctx) =>
      match k.sdk.Marshal proposal with
      | .error err => (.error err, ctx)
      | .ok bytes =>
        let ctx := k.sdk.callConsumeGas ctx
          (mulUint64 (mulUint64 3 k.sdk.WriteCostPerByte) bytes.length) "submit proposal"
        let proposer := k.sdk.addressIgnoringError msg.Proposer
        match k.Keeper.callAddDeposit ctx proposal.ProposalId proposer msg.InitialDeposit with
        | (.error err, ctx) => (.error err, ctx)
        | (.ok votingStarted, ctx) =>
          let ctx := k.sdk.callEmitEvent ctx (k.messageEvent msg.Proposer)
          let ctx :=
            if votingStarted then
              k.sdk.callEmitEvent ctx
                (NewEvent k.types.EventTypeSubmitProposal
                  [NewAttribute k.types.AttributeKeyVotingPeriodStart
                    (formatUint proposal.ProposalId)])
            else ctx
          (.ok { ProposalId := proposal.ProposalId }, ctx)

/-- The handler `msgServer.ExecLegacyContent`. -/
def ExecLegacyContent (k : msgServer σ) (ctx : Context σ) (msg : v1beta2.MsgExecLegacyContent) :
    Except Error v1beta2.MsgExecLegacyContentResponse × Context σ :=
  match k.Keeper.callGetGovernanceAccount ctx with
  | (acct, ctx) =>
    let govAcct := k.sdk.AccAddressString acct
    if govAcct ≠ msg.Authority then
      (.error (.Wrap .ErrInvalidSigner ("expected " ++ govAcct ++ " got " ++ msg.Authority)), ctx)
    else
      match v1beta2.LegacyContentFromMessage msg with
      | .error err => (.error (.WrapErr .ErrInvalidProposalContent "" err), ctx)
      | .ok content =>
        if !k.Keeper.legacyRouter.HasRoute content.ProposalRoute then
          (.error (.Wrap .ErrNoProposalHandlerExists content.ProposalRoute), ctx)
        else
          let handler := k.Keeper.legacyRouter.GetRoute content.ProposalRoute
          match callLegacyHandler handler ctx content.ProposalRoute content with
          | (some err, ctx) =>
            (.error (.WrapErr .ErrInvalidProposalContent
              ("failed to run legacy handler " ++ content.ProposalRoute ++ ", ") err), ctx)
          | (none, ctx) => (.ok {}, ctx)

/-- The handler `msgServer.Vote`. -/
def Vote (k : msgServer σ) (ctx : Context σ) (msg : v1beta2.MsgVote) :
    Except Error v1beta2.MsgVoteResponse × Context σ :=
  match k.sdk.AccAddressFromBech32 msg.Voter with
  | .error accErr => (.error accErr, ctx)
  | .ok accAddr =>
    match k.Keeper.callAddVote ctx msg.ProposalId accAddr
        (v1beta2.NewNonSplitVoteOption msg.Option) with
    | (some err, ctx) => (.error err, ctx)
    | (none, ctx) =>
      let ctx := k.sdk.callEmitEvent ctx (k.messageEvent msg.Voter)
      (.ok {}, ctx)

/-- The handler `msgServer.VoteWeighted`. -/
def VoteWeighted (k : msgServer σ) (ctx : Context σ) (msg : v1beta2.MsgVoteWeighted) :
    Except Error v1beta2.MsgVoteWeightedResponse × Context σ :=
  match k.sdk.AccAddressFromBech32 msg.Voter with
  | .error accErr => (.error accErr, ctx)
  | .ok accAddr =>
    match k.Keeper.callAddVote ctx msg.ProposalId accAddr msg.Options with
    | (some err, ctx) => (.error err, ctx)
    | (none, ctx) =>
      let ctx := k.sdk.callEmitEvent ctx (k.messageEvent msg.Voter)
      (.ok {}, ctx)

/-- The handler `msgServer.Deposit`. -/
def Deposit (k : msgServer σ) (ctx : Context σ) (msg : v1beta2.MsgDeposit) :
    Except Error v1beta2.MsgDepositResponse × Context σ :=
  match k.sdk.AccAddressFromBech32 msg.Depositor with
  | .error err => (.error err, ctx)
  | .ok accAddr =>
    match k.Keeper.callAddDeposit ctx msg.ProposalId accAddr msg.Amount with
    | (.error err, ctx) => (.error err, ctx)
    | (.ok votingStarted, ctx) =>
      let ctx := k.sdk.callEmitEvent ctx (k.messageEvent msg.Depositor)
      let ctx :=
        if votingStarted then
          k.sdk.callEmitEvent ctx
            (NewEvent k.types.EventTypeProposalDeposit
              [NewAttribute k.types.AttributeKeyVotingPeriodStart (formatUint msg.ProposalId)])
        else ctx
      (.ok {}, ctx)

end msgServer

/-! ## The legacy message server -/

namespace v1beta2

/-- The interface `v1beta2.MsgServer`. -/
structure MsgServer (σ : Type) where
  SubmitProposal : Context σ → MsgSubmitProposal →
    Except Error MsgSubmitProposalResponse × Context σ
  ExecLegacyContent : Context σ → MsgExecLegacyContent →
    Except Error MsgExecLegacyContentResponse × Context σ
  Vote : Context σ → MsgVote → Except Error MsgVoteResponse × Context σ
  VoteWeighted : Context σ → MsgVoteWeighted → Except Error MsgVoteWeightedResponse × Context σ
  Deposit : Context σ → MsgDeposit → Except Error MsgDepositResponse × Context σ

end v1beta2

/-- The constructor `NewMsgServerImpl`: `msgServer` as an implementation of the interface. -/
def NewMsgServerImpl (k : msgServer σ) : v1beta2.MsgServer σ where
  SubmitProposal := k.SubmitProposal
  ExecLegacyContent := k.ExecLegacyContent
  Vote := k.Vote
  VoteWeighted := k.VoteWeighted
  Deposit := k.Deposit

/-- The type `legacyMsgServer`. -/
structure legacyMsgServer (σ : Type) where
  govAcct : String
  server : v1beta2.MsgServer σ

/-- The constructor `NewLegacyMsgServerImpl`. -/
def NewLegacyMsgServerImpl (govAcct : String) (v1beta2Server : v1beta2.MsgServer σ) :
    legacyMsgServer σ :=
  { govAcct := govAcct, server := v1beta2Server }

namespace legacyMsgServer

/-- The handler `legacyMsgServer.SubmitProposal`. -/
def SubmitProposal (k : legacyMsgServer σ) (goCtx : Context σ) (msg : v1beta1.MsgSubmitProposal) :
    Except Error v1beta1.MsgSubmitProposalResponse × Context σ :=
  match v1beta2.NewLegacyContent msg.Content k.govAcct with
  | .error err =>
    (.error (.Errorf "error converting legacy content into proposal message" err), goCtx)
  | .ok contentMsg =>
    match v1beta2.NewMsgSubmitProposal [v1beta2.Msg.ExecLegacyContent contentMsg]
        msg.InitialDeposit msg.Proposer [] with
    | .error err => (.error err, goCtx)
    | .ok proposal =>
      match k.server.SubmitProposal goCtx proposal with
      | (.error err, ctx) => (.error err, ctx)
      | (.ok resp, ctx) => (.ok { ProposalId := resp.ProposalId }, ctx)

/-- The handler `legacyMsgServer.Vote`. -/
def Vote (k : legacyMsgServer σ) (goCtx : Context σ) (msg : v1beta1.MsgVote) :
    Except Error v1beta1.MsgVoteResponse × Context σ :=
  match k.server.Vote goCtx
      { ProposalId := msg.ProposalId, Voter := msg.Voter,
        Option := v1beta2.VoteOption.ofLegacy msg.Option } with
  | (.error err, ctx) => (.error err, ctx)
  | (.ok _, ctx) => (.ok {}, ctx)

/-- The handler `legacyMsgServer.VoteWeighted`. -/
def VoteWeighted (k : legacyMsgServer σ) (goCtx : Context σ) (msg : v1beta1.MsgVoteWeighted) :
    Except Error v1beta1.MsgVoteWeightedResponse × Context σ :=
  let opts : v1beta2.WeightedVoteOptions :=
    msg.Options.map fun opt =>
      { Option := v1beta2.VoteOption.ofLegacy opt.Option, Weight := opt.Weight.String }
  match k.server.VoteWeighted goCtx
      { ProposalId := msg.ProposalId, Voter := msg.Voter, Options := opts } with
  | (.error err, ctx) => (.error err, ctx)
  | (.ok _, ctx) => (.ok {}, ctx)

/-- The handler `legacyMsgServer.Deposit`. -/
def Deposit (k : legacyMsgServer σ) (goCtx : Context σ) (msg : v1beta1.MsgDeposit) :
    Except Error v1beta1.MsgDepositResponse × Context σ :=
  match k.server.Deposit goCtx
      { ProposalId := msg.ProposalId, Depositor := msg.Depositor, Amount := msg.Amount } with
  | (.error err, ctx) => (.error err, ctx)
  | (.ok _, ctx) => (.ok {}, ctx)

end legacyMsgServer

/-! ## Observations on the record of calls -/

/-- The calls made between the context `before` and the later context `after`. -/
def callsSince (before after : Context σ) : List Call :=
  after.calls.drop before.calls.length

/-- The events emitted by the message server, in order, among a list of calls. -/
def emittedEvents : List Call → List Event
  | [] => []
  | Call.EmitEvent e :: rest => e :: emittedEvents rest
  | _ :: rest => emittedEvents rest

/-- The gas charges made by the message server, in order, among a list of calls. -/
def gasCharges : List Call → List (Nat × String)
  | [] => []
  | Call.ConsumeGas amount descriptor :: rest => (amount, descriptor) :: gasCharges rest
  | _ :: rest => gasCharges rest

/-- The invocations of legacy route handlers, in order, among a list of calls. -/
def handlerRuns : List Call → List (String × Content)
  | [] => []
  | Call.LegacyHandler route content :: rest => (route, content) :: handlerRuns rest
  | _ :: rest => handlerRuns rest

/-- The votes passed to the vote ledger, in order, among a list of calls. -/
def votesAdded : List Call → List (Nat × AccAddress × v1beta2.WeightedVoteOptions)
  | [] => []
  | Call.AddVote id voter options :: rest => (id, voter, options) :: votesAdded rest
  | _ :: rest => votesAdded rest

/-! ## A concrete chain to run the handlers on -/

/-- The state of a small chain: the next proposal id, the events and the gas recorded behind
the context, and the legacy contents executed so far. -/
structure Chain where
  nextId : Nat
  events : List Event
  gas : Nat
  executed : List Content
  deriving DecidableEq, Repr

/-- The address of the governance module account on the small chain. -/
def govAddress : AccAddress := [103, 111, 118]

/-- The address of the validator on the small chain. -/
def valAddress : AccAddress := [118, 97, 108]

/-- The handler of text proposals on the small chain: it rejects a content without title. -/
def textHandler : Handler Chain := fun s c =>
  if c.Title = "" then (some (.other "sdk" 18 "invalid request"), s)
  else (none, { s with executed := s.executed ++ [c] })

/-- The legacy router of the small chain: the single route `gov`. -/
def chainRouter : Router Chain where
  HasRoute := fun r => r == "gov"
  GetRoute := fun _ => textHandler

/-- The keeper of the small chain: a proposal needs one message at least, a deposit or a
vote needs an existing proposal, and a deposit of ten million units starts the voting. -/
def chainKeeper : Keeper Chain where
  SubmitProposal := fun s msgs md =>
    if msgs = [] then (.error (.other "gov" 11 "no messages proposed"), s)
    else (.ok { ProposalId := s.nextId, Messages := msgs, Metadata := md },
          { s with nextId := s.nextId + 1 })
  AddDeposit := fun s id _ amount =>
    if id < s.nextId then (.ok (decide (10000000 ≤ (amount.map Coin.Amount).sum)), s)
    else (.error (.Wrap (.other "gov" 2 "unknown proposal") (formatUint id)), s)
  AddVote := fun s id _ _ =>
    if id < s.nextId then (none, s)
    else (some (.Wrap (.other "gov" 2 "unknown proposal") (formatUint id)), s)
  GetGovernanceAccount := fun s => (govAddress, s)
  legacyRouter := chainRouter

/-- The `sdk` side of the small chain. -/
def chainSdk : Sdk Chain where
  AccAddressFromBech32 := fun s =>
    if s = "cosmos1gov" then .ok govAddress
    else if s = "cosmos1val" then .ok valAddress
    else .error (.other "undefined" 1 "decoding bech32 failed")
  AccAddressString := fun a =>
    if a = govAddress then "cosmos1gov" else if a = valAddress then "cosmos1val" else ""
  EmitEvent := fun s e => { s with events := s.events ++ [e] }
  ConsumeGas := fun s amount _ => { s with gas := s.gas + amount }
  WriteCostPerByte := 30
  Marshal := fun p => .ok (p.ProposalId :: p.Metadata ++ List.replicate p.Messages.length 0)
  EventTypeMessage := "message"
  AttributeKeyModule := "module"
  AttributeKeySender := "sender"

/-- The constants of `x/gov/types` on the small chain. -/
def chainTypes : GovTypes where
  AttributeValueCategory := "governance"
  EventTypeSubmitProposal := "submit_proposal"
  EventTypeProposalDeposit := "proposal_deposit"
  AttributeKeyVotingPeriodStart := "voting_period_start"

/-- The message server of the small chain. -/
def chainServer : msgServer Chain := ⟨chainKeeper, chainSdk, chainTypes⟩

/-- The legacy message server of the small chain. -/
def chainLegacyServer : legacyMsgServer Chain :=
  NewLegacyMsgServerImpl "cosmos1gov" (NewMsgServerImpl chainServer)

/-- A fresh context on the small chain: the first proposal id is 1, nothing recorded. -/
def chainCtx : Context Chain := ⟨⟨1, [], 0, []⟩, []⟩

/-- A context on the small chain after proposal 1 has been stored. -/
def chainCtxOne : Context Chain := ⟨⟨2, [], 0, []⟩, []⟩

/-- A text proposal content. -/
def textContent : Content := ⟨"gov", "Text", "Text Proposal 1", "Where is the title!?"⟩

/-- A content whose route has no handler. -/
def strayContent : Content := ⟨"params", "ParameterChange", "Change", "A change"⟩

/-- A text proposal content that its handler rejects. -/
def untitledContent : Content := ⟨"gov", "Text", "", "Where is the title!?"⟩

/-! ## Further observations and inputs -/

/-- The error of a Go result `(T, error)`, or `none` on success. -/
def errorOf {α : Type} : Except Error α → Option Error
  | .error e => some e
  | .ok _ => none

/-- The voting-period-start event of a handler: an event of type `ty` whose single attribute
has the key `AttributeKeyVotingPeriodStart` and the proposal id in decimal as value. -/
def votingPeriodStartEvent (k : msgServer σ) (ty : String) (proposalID : Nat) : Event :=
  NewEvent ty [NewAttribute k.types.AttributeKeyVotingPeriodStart (formatUint proposalID)]

/-- A legacy weighted vote on proposal 1 of the small chain: the split of the test suite,
`yes=0.6,no=0.3,abstain=0.05,no_with_veto=0.05`. -/
def splitVote : v1beta1.MsgVoteWeighted :=
  { ProposalId := 1, Voter := "cosmos1val",
    Options := [⟨⟨1⟩, NewDecWithPrec 60 2⟩, ⟨⟨3⟩, NewDecWithPrec 30 2⟩,
                ⟨⟨2⟩, NewDecWithPrec 5 2⟩, ⟨⟨4⟩, NewDecWithPrec 5 2⟩] }

/-! ## The tally engine -/

/-- Modelled from the spec: the tally engine (`keeper/tally.go`) is not among the sources. The
`TallyResult` of the spec is `{yes, no, abstain, no_with_veto}`, "each an arbitrary-precision
non-negative integer representing token-weighted power". -/
structure TallyResult where
  yes : Nat
  no : Nat
  abstain : Nat
  no_with_veto : Nat
  deriving DecidableEq, Repr

/-- Modelled from the spec: the tallying parameters `quorum`, `threshold` and
`veto_threshold`, three fractions. -/
structure TallyParams where
  quorum : Dec
  threshold : Dec
  veto_threshold : Dec
  deriving DecidableEq, Repr

/-- Modelled from the spec: the outcomes of a tally, `Passed`, `Rejected` and
`VetoRejected`. -/
inductive Outcome
  | Passed
  | Rejected
  | VetoRejected
  deriving DecidableEq, Repr

/-- Modelled from the spec: `participating = yes+no+abstain+no_with_veto` (step 3). -/
def TallyResult.participating (t : TallyResult) : Nat :=
  t.yes + t.no + t.abstain + t.no_with_veto

/-- Modelled from the spec: steps 4 to 7 of the tally algorithm, which the spec wants
"evaluated with integer/fixed-point arithmetic only". A parameter is the fraction
`p.i / 10 ^ 18`, and a ratio `a / b` is compared with it on integers, `a * 10 ^ 18` against
`p.i * b`. The tally and `total_power` are in the same unit. -/
def tallyOutcome (p : TallyParams) (t : TallyResult) (total_power : Nat) : Outcome :=
  if (t.participating : Int) * 10 ^ Precision < p.quorum.i * total_power then Outcome.Rejected
  else if p.veto_threshold.i * t.participating ≤ (t.no_with_veto : Int) * 10 ^ Precision then
    Outcome.VetoRejected
  else if p.threshold.i * ((t.participating : Int) - t.abstain) < (t.yes : Int) * 10 ^ Precision
  then Outcome.Passed
  else Outcome.Rejected

/-- The value of an `sdk.Dec` as a rational number. -/
def Dec.toRat (d : Dec) : ℚ := (d.i : ℚ) / 10 ^ Precision

/-- The ratio `participating / total_power` of step 4, as a rational number. -/
def participationRatio (t : TallyResult) (total_power : Nat) : ℚ :=
  (t.participating : ℚ) / total_power

/-- The ratio `no_with_veto / participating` of step 5, as a rational number. -/
def vetoRatio (t : TallyResult) : ℚ :=
  (t.no_with_veto : ℚ) / t.participating

/-- The ratio `yes / (participating - abstain)` of step 6, as a rational number. -/
def yesRatio (t : TallyResult) : ℚ :=
  (t.yes : ℚ) / ((t.participating : ℚ) - t.abstain)

/-- Modelled from the spec: the share of one option of a vote is added to the running total
of its kind (step 2); an option of no known kind adds to none. -/
def TallyResult.addShare (t : TallyResult) (option : v1beta2.VoteOption) (share : Nat) :
    TallyResult :=
  if option = v1beta2.OptionYes then { t with yes := t.yes + share }
  else if option = v1beta2.OptionNo then { t with no := t.no + share }
  else if option = v1beta2.OptionAbstain then { t with abstain := t.abstain + share }
  else if option = v1beta2.OptionNoWithVeto then
    { t with no_with_veto := t.no_with_veto + share }
  else t

/-- Modelled from the spec: step 2, "split its power across its weighted options using exact
fraction multiplication, accumulating into the four running totals as arbitrary-precision
integers". The product of a power and of a weight `w.i / 10 ^ 18` is held exactly, as the
integer `power * w.i`: the running totals are in units of `10 ^ -18` of a token. -/
def splitPower (power : Nat) (options : List (v1beta2.VoteOption × Dec)) (t : TallyResult) :
    TallyResult :=
  options.foldl (fun acc o => acc.addShare o.1 (power * o.2.i.toNat)) t

/-- Modelled from the spec: steps 1 and 2 over all the votes cast; each vote comes with the
voting power of its voter, which step 1 obtains from the staking collaborator. -/
def tallyVotes (votes : List (Nat × List (v1beta2.VoteOption × Dec))) : TallyResult :=
  votes.foldl (fun acc v => splitPower v.1 v.2 acc) ⟨0, 0, 0, 0⟩

/-- A bonded power in the unit of the running totals, `10 ^ -18` of a token. -/
def scaledPower (bonded : Nat) : Nat := bonded * 10 ^ Precision

/-- The tallying parameters of the test suite: `quorum = 0.334`, `threshold = 0.5`,
`veto_threshold = 0.334`. -/
def suiteTallyParams : TallyParams :=
  ⟨NewDecWithPrec 334 3, NewDecWithPrec 5 1, NewDecWithPrec 334 3⟩

/-- The split vote of the test suite as stored: `yes` 0.6, `no` 0.3, `abstain` 0.05,
`no_with_veto` 0.05. -/
def suiteSplit : List (v1beta2.VoteOption × Dec) :=
  [(v1beta2.OptionYes, NewDecWithPrec 60 2), (v1beta2.OptionNo, NewDecWithPrec 30 2),
   (v1beta2.OptionAbstain, NewDecWithPrec 5 2), (v1beta2.OptionNoWithVeto, NewDecWithPrec 5 2)]

/-! ## Decimal strings and the validation of weighted options -/

/-- The value of a decimal digit, or `none` for another character. -/
def digitOf (c : Char) : Option Nat :=
  if 48 ≤ c.toNat ∧ c.toNat ≤ 57 then some (c.toNat - 48) else none

/-- The number written by a list of decimal digits, read after the number `acc`; `none` when
a character is not a digit. -/
def digitsValue : List Char → Nat → Option Nat
  | [], acc => some acc
  | c :: cs, acc =>
    match digitOf c with
    | none => none
    | some d => digitsValue cs (acc * 10 + d)

/-- Modelled from the spec: `sdk.NewDecFromStr` (`types/decimal.go`) is not among the sources;
it reads the "exact decimal fraction" of a weight from its text: an optional `-`, at least one
digit, and optionally a point followed by 1 to 18 digits. Any other text is refused. -/
def NewDecFromStr (str : String) : Option Dec :=
  let neg : Bool := str.data.head? = some '-'
  let body : List Char := if neg then str.data.drop 1 else str.data
  let intStr := body.takeWhile (fun c => c != '.')
  let rest := body.dropWhile (fun c => c != '.')
  let fracStr := rest.drop 1
  if intStr = [] then none
  else if rest ≠ [] ∧ (fracStr = [] ∨ Precision < fracStr.length) then none
  else
    match digitsValue (intStr ++ fracStr) 0 with
    | none => none
    | some n =>
      let v : Int := (n : Int) * 10 ^ (Precision - fracStr.length)
      some ⟨if neg then -v else v⟩

/-- The options of a weighted vote with their weights read as decimals; `none` when a weight
is not a decimal string. -/
def parseOptions : v1beta2.WeightedVoteOptions → Option (List (v1beta2.VoteOption × Dec))
  | [] => some []
  | o :: rest =>
    match NewDecFromStr o.Weight, parseOptions rest with
    | some w, some ws => some ((o.Option, w) :: ws)
    | _, _ => none

/-- Whether a list of option kinds names a kind twice. -/
def hasDuplicate : List v1beta2.VoteOption → Bool
  | [] => false
  | o :: rest => rest.contains o || hasDuplicate rest

/-- Modelled from the spec: the check behind `InvalidVoteOption`, on integers: the options
are not empty, no kind comes twice, every weight is positive, and the weights, as integers
scaled by `10 ^ 18`, add up to `10 ^ 18`. -/
def validOptions (options : List (v1beta2.VoteOption × Dec)) : Bool :=
  !options.isEmpty && !hasDuplicate (options.map (fun o => o.1))
    && options.all (fun o => decide (0 < o.2.i))
    && decide ((options.map (fun o => o.2.i)).sum = 10 ^ Precision)

/-! ## Errors of the ledgers -/

/-- Modelled from the spec: the error kind `ProposalNotFound`, registered by `x/gov/types`
(not among the sources); the test suite reads its code, 2, in the response to a vote and to a
deposit on the missing proposal 10. -/
def ErrUnknownProposal : Error := .other "gov" 2 "unknown proposal"

/-- Modelled from the spec: the error kind `InactiveProposal`, "wrong lifecycle stage for the
requested action". -/
def ErrInactiveProposal : Error := .other "gov" 3 "inactive proposal"

/-- Modelled from the spec: the error kind `InvalidVoteOption`, "empty, duplicate,
non-positive, or non-unit-sum weights". -/
def ErrInvalidVote : Error := .other "gov" 7 "invalid vote option"

/-! ## The ledgers and their keeper -/

/-- Modelled from the spec: the `status` of a proposal. -/
inductive ProposalStatus
  | DepositPeriod
  | VotingPeriod
  | Passed
  | Rejected
  | Failed
  | VetoRejected
  deriving DecidableEq, Repr

/-- Modelled from the spec: the `Proposal` record of the proposal ledger (the keeper of the
sources receives no proposer, so the record holds none). -/
structure StoredProposal where
  id : Nat
  actions : List v1beta2.Msg
  metadata : List Nat
  status : ProposalStatus
  submit_time : Nat
  deposit_end_time : Nat
  voting_start_time : Option Nat
  voting_end_time : Option Nat
  total_deposit : Coins
  final_tally : Option TallyResult
  deriving DecidableEq, Repr

/-- Modelled from the spec: a `Deposit` record, keyed by proposal and depositor. -/
structure DepositRecord where
  proposal_id : Nat
  depositor : AccAddress
  amount : Coins
  deriving DecidableEq, Repr

/-- Modelled from the spec: a `Vote` record, keyed by proposal and voter. -/
structure VoteRecord where
  proposal_id : Nat
  voter : AccAddress
  options : List (v1beta2.VoteOption × Dec)
  deriving DecidableEq, Repr

/-- Modelled from the spec: the deposit and voting parameters. -/
structure GovParams where
  min_deposit : Coins
  max_deposit_period : Nat
  voting_period : Nat
  deriving DecidableEq, Repr

/-- Modelled from the spec: the shared state of §5, "exactly the Proposal/Deposit/Vote
ledgers" with the id counter, and around them the block time and the events and the gas
recorded behind the context. The funds of a deposit are moved by the bank, "external
collaborator", which is not part of this state. -/
structure Ledger where
  next_id : Nat
  proposals : List StoredProposal
  deposits : List DepositRecord
  votes : List VoteRecord
  now : Nat
  events : List Event
  gas_consumed : Nat
  deriving DecidableEq, Repr

/-- The amount of one denomination in a multi-denomination amount. -/
def amountOf (coins : Coins) (denom : String) : Int :=
  ((coins.filter (fun c => c.Denom = denom)).map Coin.Amount).sum

/-- One coin added to a multi-denomination amount. -/
def addCoin (coins : Coins) (c : Coin) : Coins :=
  if coins.any (fun x => x.Denom = c.Denom) then
    coins.map (fun x => if x.Denom = c.Denom then { x with Amount := x.Amount + c.Amount } else x)
  else coins ++ [c]

/-- The sum of two multi-denomination amounts. -/
def addCoins (a b : Coins) : Coins := b.foldl addCoin a

/-- Whether `total` reaches `min`: "per-denomination comparison, all required denominations
met". -/
def coversCoins (total min : Coins) : Bool :=
  min.all (fun m => decide (m.Amount ≤ amountOf total m.Denom))

/-- The proposal of a given id in the proposal ledger. -/
def Ledger.proposal? (s : Ledger) (id : Nat) : Option StoredProposal :=
  s.proposals.find? (fun p => p.id = id)

/-- The authority that an action requires: the `Authority` of the synthetic legacy action,
the signers of any other message. -/
def requiredAuthority : v1beta2.Msg → List String
  | .ExecLegacyContent m => [m.Authority]
  | .other _ signers _ => signers

/-- Modelled from the spec: `SubmitProposal(actions, metadata)` of §4.1 (`keeper/proposal.go`
is not among the sources). It "fails `InvalidProposalContent` if the action list is empty or
any action's required-authority field does not exactly equal the module's own account
address"; on success it "allocates the next id, status=DepositPeriod, submit_time=now,
deposit_end_time=now+max_deposit_period, persists". -/
def Ledger.SubmitProposal (params : GovParams) (govAcct : String) (s : Ledger)
    (actions : List v1beta2.Msg) (metadata : List Nat) :
    Except Error v1beta2.Proposal × Ledger :=
  if actions = [] ∨ ¬ actions.all (fun a => decide (requiredAuthority a = [govAcct])) then
    (.error .ErrInvalidProposalContent, s)
  else
    (.ok { ProposalId := s.next_id, Messages := actions, Metadata := metadata },
     { s with
       next_id := s.next_id + 1
       proposals := s.proposals ++
         [{ id := s.next_id, actions := actions, metadata := metadata,
            status := .DepositPeriod, submit_time := s.now,
            deposit_end_time := s.now + params.max_deposit_period,
            voting_start_time := none, voting_end_time := none,
            total_deposit := [], final_tally := none }] })

/-- The deposit ledger after `amount` is added to the record of `(id, depositor)`: "multiple
deposits from the same depositor accumulate into one record". -/
def accumulateDeposit (deposits : List DepositRecord) (id : Nat) (depositor : AccAddress)
    (amount : Coins) : List DepositRecord :=
  if deposits.any (fun d => d.proposal_id = id ∧ d.depositor = depositor) then
    deposits.map (fun d =>
      if d.proposal_id = id ∧ d.depositor = depositor then
        { d with amount := addCoins d.amount amount }
      else d)
  else deposits ++ [⟨id, depositor, amount⟩]

/-- Modelled from the spec: `AddDeposit(proposal_id, depositor, amount)` of §4.1
(`keeper/deposit.go` is not among the sources). It "fails `ProposalNotFound` if absent or
already past deposit_end_time without reaching threshold", accumulates into the deposit record
and `total_deposit`, and when the status is `DepositPeriod` and the total reaches
`min_deposit` it sets the status to `VotingPeriod`, stamps the voting times and returns
`true`; a later deposit on the same proposal returns `false`. -/
def Ledger.AddDeposit (params : GovParams) (s : Ledger) (id : Nat) (depositor : AccAddress)
    (amount : Coins) : Except Error Bool × Ledger :=
  match s.proposal? id with
  | none => (.error ErrUnknownProposal, s)
  | some p =>
    if p.status = .DepositPeriod ∧ p.deposit_end_time < s.now then
      (.error ErrUnknownProposal, s)
    else
      let total := addCoins p.total_deposit amount
      let activated : Bool := decide (p.status = .DepositPeriod) && coversCoins total
        params.min_deposit
      let p1 : StoredProposal :=
        if activated then
          { p with
            total_deposit := total, status := .VotingPeriod
            voting_start_time := some s.now
            voting_end_time := some (s.now + params.voting_period) }
        else { p with total_deposit := total }
      (.ok activated,
       { s with
         proposals := s.proposals.map (fun q => if q.id = id then p1 else q)
         deposits := accumulateDeposit s.deposits id depositor amount })

/-- Modelled from the spec: `AddVote(proposal_id, voter, options)` of §4.2 (`keeper/vote.go`
is not among the sources): it "fails `ProposalNotFound` if missing, `InactiveProposal` if
status ≠ VotingPeriod, `InvalidVoteOption` if options is empty, contains a duplicate option
kind, any weight ≤ 0, or the weights do not sum to exactly 1", and it "overwrites any prior
vote by the same voter on the same proposal". -/
def Ledger.AddVote (s : Ledger) (id : Nat) (voter : AccAddress)
    (options : v1beta2.WeightedVoteOptions) : Option Error × Ledger :=
  match s.proposal? id with
  | none => (some ErrUnknownProposal, s)
  | some p =>
    if p.status ≠ .VotingPeriod then (some ErrInactiveProposal, s)
    else
      match parseOptions options with
      | none => (some ErrInvalidVote, s)
      | some weighted =>
        if validOptions weighted then
          (none,
           { s with
             votes := s.votes.filter (fun v => ¬ (v.proposal_id = id ∧ v.voter = voter))
               ++ [⟨id, voter, weighted⟩] })
        else (some ErrInvalidVote, s)

/-- The keeper over the ledgers, for given parameters, module account and legacy router. -/
def ledgerKeeper (params : GovParams) (govAddr : AccAddress) (govAcct : String)
    (router : Router Ledger) : Keeper Ledger where
  SubmitProposal := Ledger.SubmitProposal params govAcct
  AddDeposit := Ledger.AddDeposit params
  AddVote := Ledger.AddVote
  GetGovernanceAccount := fun s => (govAddr, s)
  legacyRouter := router

/-- The event manager, the gas meter and the codecs over the ledgers. -/
def ledgerSdk : Sdk Ledger where
  AccAddressFromBech32 := chainSdk.AccAddressFromBech32
  AccAddressString := chainSdk.AccAddressString
  EmitEvent := fun s e => { s with events := s.events ++ [e] }
  ConsumeGas := fun s amount _ => { s with gas_consumed := s.gas_consumed + amount }
  WriteCostPerByte := 30
  Marshal := chainSdk.Marshal
  EventTypeMessage := "message"
  AttributeKeyModule := "module"
  AttributeKeySender := "sender"

/-- The parameters of the test suite: a minimum deposit of 10000000 `stake` and periods of 48
hours, in nanoseconds. -/
def suiteParams : GovParams := ⟨[⟨"stake", 10000000⟩], 172800000000000, 172800000000000⟩

/-- The legacy router over the ledgers: no route. -/
def ledgerRouter : Router Ledger where
  HasRoute := fun _ => false
  GetRoute := fun _ => fun s _ => (none, s)

/-- The message server over the ledgers, for a given `sdk` side. -/
def ledgerServer (params : GovParams) (sdk : Sdk Ledger) : msgServer Ledger :=
  ⟨ledgerKeeper params govAddress "cosmos1gov" ledgerRouter, sdk, chainTypes⟩

/-- A ledger on which proposal 1 is in its voting period. -/
def votingLedger : Context Ledger :=
  ⟨⟨2, [⟨1, [.ExecLegacyContent ⟨some textContent, "cosmos1gov"⟩], [], .VotingPeriod, 1000,
        172800000001000, some 1000, some 172800000001000, [⟨"stake", 10000000⟩], none⟩],
     [⟨1, valAddress, [⟨"stake", 10000000⟩]⟩], [], 2000, [], 0⟩, []⟩

/-- The keeper of the small chain with a deposit engine that refuses a deposit made from the
empty address. -/
def guardedKeeper : Keeper Chain :=
  { chainKeeper with
    AddDeposit := fun s id depositor amount =>
      if depositor = [] then (.error (.other "sdk" 7 "invalid address"), s)
      else chainKeeper.AddDeposit s id depositor amount }

/-- The message server of the small chain over the keeper that refuses the empty depositor. -/
def guardedServer : msgServer Chain := ⟨guardedKeeper, chainSdk, chainTypes⟩

/-- The deposits passed to the deposit engine, in order, among a list of calls. -/
def depositsAdded : List Call → List (Nat × AccAddress × Coins)
  | [] => []
  | Call.AddDeposit id depositor amount :: rest => (id, depositor, amount) :: depositsAdded rest
  | _ :: rest => depositsAdded rest

/-- Modelled from the spec: the transaction around a handler call (it belongs to the caller of
the message server, not among the sources). "Each message handler call is one all-or-nothing
transaction: any validation failure discards every partial mutation performed during that
call", the writes being applied "as a single atomic batch": the context that the handler
leaves is kept only when the handler returns no error. -/
def runAtomically {α β : Type} (handler : Context σ → α → Except Error β × Context σ)
    (ctx : Context σ) (msg : α) : Except Error β × Context σ :=
  match handler ctx msg with
  | (.error e, _) => (.error e, ctx)
  | (.ok r, ctx1) => (.ok r, ctx1)

/-! ## Lemmas on the record of calls -/

/-- The calls since `before` of a context that extends the record of `before` by `l`. -/
theorem callsSince_extend (before : Context σ) (s : σ) (l : List Call) :
    callsSince before ⟨s, before.calls ++ l⟩ = l := by
  simp [callsSince]

/-- No call has been made since a context whose record is unchanged. -/
theorem callsSince_same (before : Context σ) (s : σ) :
    callsSince before ⟨s, before.calls⟩ = [] := by
  simp [callsSince]

/-! ## `ExecLegacyContent` -/

/-- C1: an `ExecLegacyContent` request whose authority differs from the address string of the
governance account fails with `ErrInvalidSigner` (wrapped with the two address strings), for
every content and every router; the account lookup is the only call the handler makes, so no
legacy route handler runs. -/
theorem ExecLegacyContent_invalid_signer (k : msgServer σ) (ctx : Context σ)
    (msg : v1beta2.MsgExecLegacyContent)
    (h : k.sdk.AccAddressString (k.Keeper.GetGovernanceAccount ctx.state).1 ≠ msg.Authority) :
    (k.ExecLegacyContent ctx msg).1 =
        .error (.Wrap .ErrInvalidSigner
          ("expected " ++ k.sdk.AccAddressString (k.Keeper.GetGovernanceAccount ctx.state).1
            ++ " got " ++ msg.Authority))
      ∧ (errorOf (k.ExecLegacyContent ctx msg).1).map Error.Cause = some .ErrInvalidSigner
      ∧ callsSince ctx (k.ExecLegacyContent ctx msg).2 = [Call.GetGovernanceAccount]
      ∧ handlerRuns (callsSince ctx (k.ExecLegacyContent ctx msg).2) = []
      ∧ (k.ExecLegacyContent ctx msg).2.state = (k.Keeper.GetGovernanceAccount ctx.state).2 := by
  simp [msgServer.ExecLegacyContent, Keeper.callGetGovernanceAccount, h, callsSince_extend,
    handlerRuns, errorOf, Error.Cause]

/-- Witness of C1 on the small chain: the validator's address as authority. -/
theorem ExecLegacyContent_invalid_signer_witness :
    (chainServer.ExecLegacyContent chainCtx ⟨some textContent, "cosmos1val"⟩).1 =
        .error (.Wrap .ErrInvalidSigner "expected cosmos1gov got cosmos1val")
      ∧ (chainServer.ExecLegacyContent chainCtx ⟨some textContent, "cosmos1val"⟩).2.state.executed
          = [] :=
  ⟨(ExecLegacyContent_invalid_signer chainServer chainCtx ⟨some textContent, "cosmos1val"⟩
      (by decide)).1, by decide⟩

/-- C3: an `ExecLegacyContent` request with the governance account as authority and a content
that decodes, whose route the legacy router does not have, fails with
`ErrNoProposalHandlerExists` (wrapped with the route), and no legacy route handler runs. -/
theorem ExecLegacyContent_no_handler (k : msgServer σ) (ctx : Context σ)
    (msg : v1beta2.MsgExecLegacyContent) (content : Content)
    (hauth : k.sdk.AccAddressString (k.Keeper.GetGovernanceAccount ctx.state).1 = msg.Authority)
    (hcontent : v1beta2.LegacyContentFromMessage msg = .ok content)
    (hroute : k.Keeper.legacyRouter.HasRoute content.ProposalRoute = false) :
    (k.ExecLegacyContent ctx msg).1 =
        .error (.Wrap .ErrNoProposalHandlerExists content.ProposalRoute)
      ∧ (errorOf (k.ExecLegacyContent ctx msg).1).map Error.Cause
          = some .ErrNoProposalHandlerExists
      ∧ handlerRuns (callsSince ctx (k.ExecLegacyContent ctx msg).2) = []
      ∧ callsSince ctx (k.ExecLegacyContent ctx msg).2 = [Call.GetGovernanceAccount] := by
  simp [msgServer.ExecLegacyContent, Keeper.callGetGovernanceAccount, hauth, hcontent, hroute,
    callsSince_extend, handlerRuns, errorOf, Error.Cause]

/-- Witness of C3 on the small chain: a parameter-change content, whose route `params` is not
registered. -/
theorem ExecLegacyContent_no_handler_witness :
    (chainServer.ExecLegacyContent chainCtx ⟨some strayContent, "cosmos1gov"⟩).1 =
        .error (.Wrap .ErrNoProposalHandlerExists "params")
      ∧ (chainServer.ExecLegacyContent chainCtx ⟨some strayContent, "cosmos1gov"⟩).2.state.executed
          = [] :=
  ⟨(ExecLegacyContent_no_handler chainServer chainCtx ⟨some strayContent, "cosmos1gov"⟩
      strayContent (by decide) (by decide) (by decide)).1, by decide⟩

/-- C4: an `ExecLegacyContent` request with the governance account as authority and a content
whose route is registered runs the registered handler exactly once, on the decoded content and
on the state left by the account lookup; the request succeeds if and only if the handler
returns no error, and an error `e` of the handler comes back as `ErrInvalidProposalContent`
wrapped with a description made of the route and of `e`. -/
theorem ExecLegacyContent_runs_handler (k : msgServer σ) (ctx : Context σ)
    (msg : v1beta2.MsgExecLegacyContent) (content : Content)
    (hauth : k.sdk.AccAddressString (k.Keeper.GetGovernanceAccount ctx.state).1 = msg.Authority)
    (hcontent : v1beta2.LegacyContentFromMessage msg = .ok content)
    (hroute : k.Keeper.legacyRouter.HasRoute content.ProposalRoute = true) :
    handlerRuns (callsSince ctx (k.ExecLegacyContent ctx msg).2)
        = [(content.ProposalRoute, content)]
      ∧ (k.ExecLegacyContent ctx msg).2.state =
          (k.Keeper.legacyRouter.GetRoute content.ProposalRoute
            (k.Keeper.GetGovernanceAccount ctx.state).2 content).2
      ∧ ((k.ExecLegacyContent ctx msg).1 = .ok {} ↔
          (k.Keeper.legacyRouter.GetRoute content.ProposalRoute
            (k.Keeper.GetGovernanceAccount ctx.state).2 content).1 = none)
      ∧ ∀ e, (k.Keeper.legacyRouter.GetRoute content.ProposalRoute
            (k.Keeper.GetGovernanceAccount ctx.state).2 content).1 = some e →
          (k.ExecLegacyContent ctx msg).1 =
              .error (.WrapErr .ErrInvalidProposalContent
                ("failed to run legacy handler " ++ content.ProposalRoute ++ ", ") e)
            ∧ (errorOf (k.ExecLegacyContent ctx msg).1).map Error.Cause
                = some .ErrInvalidProposalContent := by
  simp only [msgServer.ExecLegacyContent, Keeper.callGetGovernanceAccount, hauth, hcontent,
    hroute, callLegacyHandler]
  cases hr : (k.Keeper.legacyRouter.GetRoute content.ProposalRoute
      (k.Keeper.GetGovernanceAccount ctx.state).2 content).1 <;>
    simp [hr, callsSince, handlerRuns, errorOf, Error.Cause]

/-- Witness of C4 on the small chain: a text proposal without title, which the handler of the
route `gov` rejects. -/
theorem ExecLegacyContent_runs_handler_witness :
    (chainServer.ExecLegacyContent chainCtx ⟨some untitledContent, "cosmos1gov"⟩).1 =
      .error (.WrapErr .ErrInvalidProposalContent "failed to run legacy handler gov, "
        (.other "sdk" 18 "invalid request")) :=
  (ExecLegacyContent_runs_handler chainServer chainCtx ⟨some untitledContent, "cosmos1gov"⟩
    untitledContent (by decide) (by decide) (by decide)).2.2.2 _ (by decide) |>.1

/-! ## Legacy `SubmitProposal`: the synthetic action -/

/-- C2: for every wrapped server, content `c`, deposit `d` and proposer `p`, the legacy
`SubmitProposal` hands to the generalized `SubmitProposal` a request with exactly one action;
unpacked, the action is an `ExecLegacyContent` message whose authority is the `govAcct` of the
server (whatever the proposer `p` is) and whose payload decodes back to `c`; the deposit and
the proposer of the request are `d` and `p`. -/
theorem legacy_SubmitProposal_request (k : legacyMsgServer σ) (ctx : Context σ) (c : Content)
    (d : Coins) (p : String) :
    ∃ req : v1beta2.MsgSubmitProposal,
      k.SubmitProposal ctx ⟨some c, d, p⟩ =
          (match k.server.SubmitProposal ctx req with
           | (.error err, ctx1) => (.error err, ctx1)
           | (.ok resp, ctx1) => (.ok { ProposalId := resp.ProposalId }, ctx1))
        ∧ req.Messages.length = 1
        ∧ req.GetMsgs = .ok [v1beta2.Msg.ExecLegacyContent ⟨some c, k.govAcct⟩]
        ∧ (∀ m, req.GetMsgs = .ok [v1beta2.Msg.ExecLegacyContent m] →
            m.Authority = k.govAcct ∧ v1beta2.LegacyContentFromMessage m = .ok c)
        ∧ req.InitialDeposit = d ∧ req.Proposer = p ∧ req.Metadata = [] := by
  refine ⟨⟨[some (v1beta2.Msg.ExecLegacyContent ⟨some c, k.govAcct⟩)], d, p, []⟩, ?_, rfl, rfl,
    ?_, rfl, rfl, rfl⟩
  · simp [legacyMsgServer.SubmitProposal, v1beta2.NewLegacyContent,
      v1beta2.NewMsgSubmitProposal]
  · intro m hm
    simp [v1beta2.MsgSubmitProposal.GetMsgs, v1beta2.unpackMsgs] at hm
    subst hm
    simp [v1beta2.LegacyContentFromMessage]

/-! ## `SubmitProposal`: the storage charge -/

/-- The product `3 * w * n` computed in `uint64` is the exact product when it fits 64 bits. -/
theorem mulUint64_three_exact (w n : Nat) (h : 3 * w * n < 2 ^ 64) :
    mulUint64 (mulUint64 3 w) n = 3 * w * n := by
  rcases Nat.eq_zero_or_pos n with hn | hn
  · subst hn
    simp [mulUint64]
  · have hw : 3 * w < 2 ^ 64 := lt_of_le_of_lt (Nat.le_mul_of_pos_right _ hn) h
    simp only [mulUint64, Nat.mod_eq_of_lt hw, Nat.mod_eq_of_lt h]

/-- C5: a `SubmitProposal` request that unpacks, that the keeper stores as `proposal`, and whose
stored proposal serializes to `bytes`, makes exactly one gas charge, whether the initial deposit
is accepted or not: the `uint64` product of 3, the per-byte write cost and the length of
`bytes`, under the descriptor `submit proposal`. For every length `n` with `3 * w * n < 2 ^ 64`
that amount is the exact product `3 * w * n`. -/
theorem SubmitProposal_gas_charge (k : msgServer σ) (ctx : Context σ)
    (msg : v1beta2.MsgSubmitProposal) (msgs : List v1beta2.Msg) (proposal : v1beta2.Proposal)
    (s : σ) (bytes : List Nat)
    (hmsgs : msg.GetMsgs = .ok msgs)
    (hstore : k.Keeper.SubmitProposal ctx.state msgs msg.Metadata = (.ok proposal, s))
    (hbytes : k.sdk.Marshal proposal = .ok bytes) :
    gasCharges (callsSince ctx (k.SubmitProposal ctx msg).2) =
        [(mulUint64 (mulUint64 3 k.sdk.WriteCostPerByte) bytes.length, "submit proposal")]
      ∧ ∀ n, 3 * k.sdk.WriteCostPerByte * n < 2 ^ 64 →
          mulUint64 (mulUint64 3 k.sdk.WriteCostPerByte) n = 3 * k.sdk.WriteCostPerByte * n := by
  refine ⟨?_, fun n hn => mulUint64_three_exact _ n hn⟩
  simp only [msgServer.SubmitProposal, hmsgs, Keeper.callSubmitProposal, hstore, hbytes,
    Sdk.callConsumeGas, Keeper.callAddDeposit, Sdk.callEmitEvent]
  split
  · rename_i heq
    simp only [Prod.mk.injEq] at heq
    rw [← heq.2]
    simp [callsSince, gasCharges]
  · rename_i votingStarted _ heq
    simp only [Prod.mk.injEq] at heq
    rw [← heq.2]
    cases votingStarted <;> simp [callsSince, gasCharges]

/-- Witness of C5 on the small chain: a proposal with one action and no deposit serializes to
two bytes and is charged `3 * 30 * 2 = 180`. -/
theorem SubmitProposal_gas_charge_witness :
    gasCharges (callsSince chainCtx (chainServer.SubmitProposal chainCtx
        ⟨[some (.ExecLegacyContent ⟨some textContent, "cosmos1gov"⟩)], [], "cosmos1val", []⟩).2)
      = [(180, "submit proposal")] :=
  (SubmitProposal_gas_charge chainServer chainCtx
    ⟨[some (.ExecLegacyContent ⟨some textContent, "cosmos1gov"⟩)], [], "cosmos1val", []⟩
    [.ExecLegacyContent ⟨some textContent, "cosmos1gov"⟩]
    ⟨1, [.ExecLegacyContent ⟨some textContent, "cosmos1gov"⟩], []⟩ ⟨2, [], 0, []⟩ [1, 0]
    (by decide) (by decide) (by decide)).1

/-! ## Votes: the single-option form and the legacy forms -/

/-- C6: for every proposal id, voter and option `o`, the handler `Vote` leaves the same context
(the same call on the vote ledger, with the same one-element option list, and the same message
event) and the same error as `VoteWeighted` called with the option list `[(o, 1)]`, the weight
being the decimal string `1.000000000000000000`; the legacy `Vote` in front of `msgServer` does
the same. -/
theorem Vote_eq_VoteWeighted_single (k : msgServer σ) (ctx : Context σ) (id : Nat)
    (voter : String) (o : v1beta2.VoteOption) (lo : v1beta1.VoteOption) (govAcct : String) :
    (k.Vote ctx ⟨id, voter, o⟩).2 =
        (k.VoteWeighted ctx ⟨id, voter, [⟨o, "1.000000000000000000"⟩]⟩).2
      ∧ errorOf (k.Vote ctx ⟨id, voter, o⟩).1 =
        errorOf (k.VoteWeighted ctx ⟨id, voter, [⟨o, "1.000000000000000000"⟩]⟩).1
      ∧ ((NewLegacyMsgServerImpl govAcct (NewMsgServerImpl k)).Vote ctx ⟨id, voter, lo⟩).2 =
        (k.VoteWeighted ctx
          ⟨id, voter, [⟨v1beta2.VoteOption.ofLegacy lo, "1.000000000000000000"⟩]⟩).2
      ∧ errorOf ((NewLegacyMsgServerImpl govAcct (NewMsgServerImpl k)).Vote ctx ⟨id, voter, lo⟩).1 =
        errorOf (k.VoteWeighted ctx
          ⟨id, voter, [⟨v1beta2.VoteOption.ofLegacy lo, "1.000000000000000000"⟩]⟩).1
      ∧ (NewDec 1).String = "1.000000000000000000" := by
  have hone : ∀ x : v1beta2.VoteOption,
      v1beta2.NewNonSplitVoteOption x = [⟨x, "1.000000000000000000"⟩] := by
    intro x
    have h : (NewDec 1).String = "1.000000000000000000" := by decide
    simp [v1beta2.NewNonSplitVoteOption, h]
  have hvote : ∀ x : v1beta2.VoteOption, k.Vote ctx ⟨id, voter, x⟩ =
      (match k.VoteWeighted ctx ⟨id, voter, [⟨x, "1.000000000000000000"⟩]⟩ with
       | (.error err, c) => (.error err, c)
       | (.ok _, c) => (.ok {}, c)) := by
    intro x
    simp only [msgServer.Vote, msgServer.VoteWeighted, hone]
    cases k.sdk.AccAddressFromBech32 voter with
    | error e => rfl
    | ok addr =>
      simp only []
      cases h : (k.Keeper.callAddVote ctx id addr [⟨x, "1.000000000000000000"⟩]) with
      | mk r c => cases r <;> rfl
  have hleg : (NewLegacyMsgServerImpl govAcct (NewMsgServerImpl k)).Vote ctx ⟨id, voter, lo⟩ =
      (match k.Vote ctx ⟨id, voter, v1beta2.VoteOption.ofLegacy lo⟩ with
       | (.error err, c) => (.error err, c)
       | (.ok _, c) => (.ok {}, c)) := rfl
  refine ⟨?_, ?_, ?_, ?_, by decide⟩
  · rw [hvote]
    rcases k.VoteWeighted ctx ⟨id, voter, [⟨o, "1.000000000000000000"⟩]⟩ with ⟨r, c⟩
    cases r <;> rfl
  · rw [hvote]
    rcases k.VoteWeighted ctx ⟨id, voter, [⟨o, "1.000000000000000000"⟩]⟩ with ⟨r, c⟩
    cases r <;> rfl
  · rw [hleg, hvote]
    rcases k.VoteWeighted ctx
      ⟨id, voter, [⟨v1beta2.VoteOption.ofLegacy lo, "1.000000000000000000"⟩]⟩ with ⟨r, c⟩
    cases r <;> rfl
  · rw [hleg, hvote]
    rcases k.VoteWeighted ctx
      ⟨id, voter, [⟨v1beta2.VoteOption.ofLegacy lo, "1.000000000000000000"⟩]⟩ with ⟨r, c⟩
    cases r <;> rfl

/-- The decimal string of an `sdk.Dec` has exactly 18 characters after its point. -/
theorem Dec.String_fraction_length (d : Dec) :
    ∃ pre frac : List Char, d.String.data = pre ++ '.' :: frac ∧ frac.length = 18 := by
  unfold Dec.String
  by_cases hlen : (Nat.toDigits 10 d.i.natAbs).length ≤ Precision
  · by_cases hneg : d.i < 0
    · refine ⟨['-', '0'], List.replicate (Precision - (Nat.toDigits 10 d.i.natAbs).length) '0'
        ++ Nat.toDigits 10 d.i.natAbs, ?_, ?_⟩
      · simp [hlen, hneg]
      · simp only [Precision] at hlen ⊢
        simp only [List.length_append, List.length_replicate]
        omega
    · refine ⟨['0'], List.replicate (Precision - (Nat.toDigits 10 d.i.natAbs).length) '0'
        ++ Nat.toDigits 10 d.i.natAbs, ?_, ?_⟩
      · simp [hlen, hneg]
      · simp only [Precision] at hlen ⊢
        simp only [List.length_append, List.length_replicate]
        omega
  · by_cases hneg : d.i < 0
    · refine ⟨'-' :: (Nat.toDigits 10 d.i.natAbs).take
          ((Nat.toDigits 10 d.i.natAbs).length - Precision),
        (Nat.toDigits 10 d.i.natAbs).drop ((Nat.toDigits 10 d.i.natAbs).length - Precision),
        ?_, ?_⟩
      · simp [hlen, hneg]
      · simp only [Precision] at hlen ⊢
        simp only [List.length_drop]
        omega
    · refine ⟨(Nat.toDigits 10 d.i.natAbs).take
          ((Nat.toDigits 10 d.i.natAbs).length - Precision),
        (Nat.toDigits 10 d.i.natAbs).drop ((Nat.toDigits 10 d.i.natAbs).length - Precision),
        ?_, ?_⟩
      · simp [hlen, hneg]
      · simp only [Precision] at hlen ⊢
        simp only [List.length_drop]
        omega

/-- C7: for every wrapped server and legacy `VoteWeighted` request, the generalized request
passed on has the same proposal id and voter and as many options as the legacy request, in the
same order, the `i`-th being the `i`-th legacy option with the decimal string of its weight,
a string with exactly 18 characters after the point;
the split `yes=0.6,no=0.3,abstain=0.05,no_with_veto=0.05` reaches the vote ledger of the small
chain as these four options, in this order, with the 18-digit weights. -/
theorem legacy_VoteWeighted_request (k : legacyMsgServer σ) (ctx : Context σ)
    (msg : v1beta1.MsgVoteWeighted) :
    (∃ req : v1beta2.MsgVoteWeighted,
      k.VoteWeighted ctx msg =
          (match k.server.VoteWeighted ctx req with
           | (.error err, ctx1) => (.error err, ctx1)
           | (.ok _, ctx1) => (.ok {}, ctx1))
        ∧ req.ProposalId = msg.ProposalId ∧ req.Voter = msg.Voter
        ∧ req.Options.length = msg.Options.length
        ∧ (∀ (i : Nat) (opt : v1beta1.WeightedVoteOption), msg.Options[i]? = some opt →
            req.Options[i]? =
              some { Option := v1beta2.VoteOption.ofLegacy opt.Option,
                     Weight := opt.Weight.String })
        ∧ ∀ o ∈ req.Options, ∃ pre frac : List Char,
            o.Weight.data = pre ++ '.' :: frac ∧ frac.length = 18)
      ∧ votesAdded (callsSince chainCtxOne (chainLegacyServer.VoteWeighted chainCtxOne splitVote).2)
          = [(1, valAddress,
              [⟨v1beta2.OptionYes, "0.600000000000000000"⟩,
               ⟨v1beta2.OptionNo, "0.300000000000000000"⟩,
               ⟨v1beta2.OptionAbstain, "0.050000000000000000"⟩,
               ⟨v1beta2.OptionNoWithVeto, "0.050000000000000000"⟩])] := by
  refine ⟨⟨⟨msg.ProposalId, msg.Voter, msg.Options.map fun opt =>
      ⟨v1beta2.VoteOption.ofLegacy opt.Option, opt.Weight.String⟩⟩, rfl, rfl, rfl, ?_, ?_, ?_⟩,
    by decide⟩
  · simp
  · intro i opt hi
    simp [List.getElem?_map, hi]
  · intro o ho
    simp only [List.mem_map] at ho
    obtain ⟨opt, _, rfl⟩ := ho
    exact Dec.String_fraction_length opt.Weight

/-! ## The legacy adapter: results -/

/-- C8: for every wrapped server, each legacy handler whose request translates into a
generalized request (a legacy `SubmitProposal` for which `NewLegacyContent` and
`NewMsgSubmitProposal` succeed, and every legacy `Vote`, `VoteWeighted` and `Deposit`) returns
the error of the wrapped handler, unchanged, exactly when the wrapped handler returns one, and
leaves the context the wrapped handler leaves; a successful legacy `SubmitProposal` returns the
`ProposalId` of the generalized response. -/
theorem legacy_results (k : legacyMsgServer σ) (ctx : Context σ) :
    (∀ (msg : v1beta1.MsgSubmitProposal) (contentMsg : v1beta2.MsgExecLegacyContent)
        (req : v1beta2.MsgSubmitProposal),
        v1beta2.NewLegacyContent msg.Content k.govAcct = .ok contentMsg →
        v1beta2.NewMsgSubmitProposal [v1beta2.Msg.ExecLegacyContent contentMsg]
          msg.InitialDeposit msg.Proposer [] = .ok req →
        k.SubmitProposal ctx msg =
          ((k.server.SubmitProposal ctx req).1.map
            (fun resp => { ProposalId := resp.ProposalId }),
           (k.server.SubmitProposal ctx req).2)
          ∧ errorOf (k.SubmitProposal ctx msg).1 = errorOf (k.server.SubmitProposal ctx req).1)
      ∧ (∀ msg : v1beta1.MsgVote,
        k.Vote ctx msg =
          ((k.server.Vote ctx
              ⟨msg.ProposalId, msg.Voter, v1beta2.VoteOption.ofLegacy msg.Option⟩).1.map
            (fun _ => {}),
           (k.server.Vote ctx
              ⟨msg.ProposalId, msg.Voter, v1beta2.VoteOption.ofLegacy msg.Option⟩).2)
          ∧ errorOf (k.Vote ctx msg).1 = errorOf (k.server.Vote ctx
              ⟨msg.ProposalId, msg.Voter, v1beta2.VoteOption.ofLegacy msg.Option⟩).1)
      ∧ (∀ msg : v1beta1.MsgVoteWeighted,
        k.VoteWeighted ctx msg =
          ((k.server.VoteWeighted ctx
              ⟨msg.ProposalId, msg.Voter, msg.Options.map fun opt =>
                ⟨v1beta2.VoteOption.ofLegacy opt.Option, opt.Weight.String⟩⟩).1.map
            (fun _ => {}),
           (k.server.VoteWeighted ctx
              ⟨msg.ProposalId, msg.Voter, msg.Options.map fun opt =>
                ⟨v1beta2.VoteOption.ofLegacy opt.Option, opt.Weight.String⟩⟩).2)
          ∧ errorOf (k.VoteWeighted ctx msg).1 = errorOf (k.server.VoteWeighted ctx
              ⟨msg.ProposalId, msg.Voter, msg.Options.map fun opt =>
                ⟨v1beta2.VoteOption.ofLegacy opt.Option, opt.Weight.String⟩⟩).1)
      ∧ (∀ msg : v1beta1.MsgDeposit,
        k.Deposit ctx msg =
          ((k.server.Deposit ctx ⟨msg.ProposalId, msg.Depositor, msg.Amount⟩).1.map
            (fun _ => {}),
           (k.server.Deposit ctx ⟨msg.ProposalId, msg.Depositor, msg.Amount⟩).2)
          ∧ errorOf (k.Deposit ctx msg).1 =
            errorOf (k.server.Deposit ctx ⟨msg.ProposalId, msg.Depositor, msg.Amount⟩).1) := by
  refine ⟨fun msg contentMsg req hc hr => ?_, fun msg => ?_, fun msg => ?_, fun msg => ?_⟩
  · simp only [legacyMsgServer.SubmitProposal, hc, hr]
    rcases k.server.SubmitProposal ctx req with ⟨r, c1⟩
    cases r <;> exact ⟨rfl, rfl⟩
  · simp only [legacyMsgServer.Vote]
    rcases k.server.Vote ctx
      ⟨msg.ProposalId, msg.Voter, v1beta2.VoteOption.ofLegacy msg.Option⟩ with ⟨r, c1⟩
    cases r <;> exact ⟨rfl, rfl⟩
  · simp only [legacyMsgServer.VoteWeighted]
    split <;> simp_all [Except.map, errorOf]
  · simp only [legacyMsgServer.Deposit]
    rcases k.server.Deposit ctx ⟨msg.ProposalId, msg.Depositor, msg.Amount⟩ with ⟨r, c1⟩
    cases r <;> exact ⟨rfl, rfl⟩

/-- Witness of C8 on the small chain: the legacy submission of a text proposal translates, and
its response carries the id 1 of the generalized response. -/
theorem legacy_results_witness :
    (chainLegacyServer.SubmitProposal chainCtx
        ⟨some textContent, [⟨"stake", 10000000⟩], "cosmos1val"⟩).1 = .ok ⟨1⟩
      ∧ ((NewMsgServerImpl chainServer).SubmitProposal chainCtx
          ⟨[some (.ExecLegacyContent ⟨some textContent, "cosmos1gov"⟩)],
            [⟨"stake", 10000000⟩], "cosmos1val", []⟩).1 = .ok ⟨1⟩ :=
  ⟨((congrArg Prod.fst (((legacy_results chainLegacyServer chainCtx).1
      ⟨some textContent, [⟨"stake", 10000000⟩], "cosmos1val"⟩
      ⟨some textContent, "cosmos1gov"⟩
      ⟨[some (.ExecLegacyContent ⟨some textContent, "cosmos1gov"⟩)],
        [⟨"stake", 10000000⟩], "cosmos1val", []⟩
      (by decide) (by decide)).1)).trans (by decide)), by decide⟩

/-! ## Events -/

/-- The message event has two attributes and the voting-period-start event has one. -/
theorem messageEvent_ne_votingPeriodStartEvent (k : msgServer σ) (sender ty : String)
    (proposalID : Nat) : k.messageEvent sender ≠ votingPeriodStartEvent k ty proposalID := by
  intro h
  have hlen := congrArg (fun e => e.Attributes.length) h
  simp [msgServer.messageEvent, votingPeriodStartEvent, NewEvent] at hlen

/-- C9: a `Deposit` call whose depositor decodes and whose deposit the keeper accepts succeeds
and emits the message event followed, exactly when the keeper reports `votingStarted = true`,
by one voting-period-start event (type `EventTypeProposalDeposit`) that carries the proposal id
in decimal; with `votingStarted = false` no such event is emitted. The same holds for the
initial deposit of a `SubmitProposal` call that reaches the deposit (type
`EventTypeSubmitProposal`, id of the stored proposal). -/
theorem voting_period_start_event (k : msgServer σ) (ctx : Context σ) :
    (∀ (msg : v1beta2.MsgDeposit) (addr : AccAddress) (votingStarted : Bool) (s : σ),
        k.sdk.AccAddressFromBech32 msg.Depositor = .ok addr →
        k.Keeper.AddDeposit ctx.state msg.ProposalId addr msg.Amount = (.ok votingStarted, s) →
        (k.Deposit ctx msg).1 = .ok {}
          ∧ emittedEvents (callsSince ctx (k.Deposit ctx msg).2) =
              k.messageEvent msg.Depositor ::
                (if votingStarted then
                  [votingPeriodStartEvent k k.types.EventTypeProposalDeposit msg.ProposalId]
                 else [])
          ∧ (emittedEvents (callsSince ctx (k.Deposit ctx msg).2)).count
                (votingPeriodStartEvent k k.types.EventTypeProposalDeposit msg.ProposalId)
              = if votingStarted then 1 else 0)
      ∧ (∀ (msg : v1beta2.MsgSubmitProposal) (msgs : List v1beta2.Msg)
          (proposal : v1beta2.Proposal) (s1 s2 : σ) (bytes : List Nat) (votingStarted : Bool),
        msg.GetMsgs = .ok msgs →
        k.Keeper.SubmitProposal ctx.state msgs msg.Metadata = (.ok proposal, s1) →
        k.sdk.Marshal proposal = .ok bytes →
        k.Keeper.AddDeposit
            (k.sdk.ConsumeGas s1 (mulUint64 (mulUint64 3 k.sdk.WriteCostPerByte) bytes.length)
              "submit proposal")
            proposal.ProposalId (k.sdk.addressIgnoringError msg.Proposer) msg.InitialDeposit
          = (.ok votingStarted, s2) →
        (k.SubmitProposal ctx msg).1 = .ok ⟨proposal.ProposalId⟩
          ∧ emittedEvents (callsSince ctx (k.SubmitProposal ctx msg).2) =
              k.messageEvent msg.Proposer ::
                (if votingStarted then
                  [votingPeriodStartEvent k k.types.EventTypeSubmitProposal proposal.ProposalId]
                 else [])
          ∧ (emittedEvents (callsSince ctx (k.SubmitProposal ctx msg).2)).count
                (votingPeriodStartEvent k k.types.EventTypeSubmitProposal proposal.ProposalId)
              = if votingStarted then 1 else 0) := by
  constructor
  · intro msg addr votingStarted s haddr hdep
    have hne := messageEvent_ne_votingPeriodStartEvent k msg.Depositor
      k.types.EventTypeProposalDeposit msg.ProposalId
    cases votingStarted <;>
      simp [msgServer.Deposit, haddr, Keeper.callAddDeposit, hdep, Sdk.callEmitEvent,
        callsSince, emittedEvents, votingPeriodStartEvent, List.count_cons] <;>
      simpa [votingPeriodStartEvent] using hne
  · intro msg msgs proposal s1 s2 bytes votingStarted hmsgs hstore hbytes hdep
    have hne := messageEvent_ne_votingPeriodStartEvent k msg.Proposer
      k.types.EventTypeSubmitProposal proposal.ProposalId
    cases votingStarted <;>
      simp [msgServer.SubmitProposal, hmsgs, Keeper.callSubmitProposal, hstore, hbytes,
        Sdk.callConsumeGas, Keeper.callAddDeposit, hdep, Sdk.callEmitEvent,
        callsSince, emittedEvents, votingPeriodStartEvent, List.count_cons] <;>
      simpa [votingPeriodStartEvent] using hne

/-- Witness of C9 on the small chain: a deposit of ten million `stake` on proposal 1 starts the
voting period, and the event carries the id `1`. -/
theorem voting_period_start_event_witness :
    emittedEvents (callsSince chainCtxOne
        (chainServer.Deposit chainCtxOne ⟨1, "cosmos1val", [⟨"stake", 10000000⟩]⟩).2) =
      [⟨"message", [⟨"module", "governance"⟩, ⟨"sender", "cosmos1val"⟩]⟩,
       ⟨"proposal_deposit", [⟨"voting_period_start", "1"⟩]⟩] :=
  ((voting_period_start_event chainServer chainCtxOne).1
    ⟨1, "cosmos1val", [⟨"stake", 10000000⟩]⟩ valAddress true chainCtxOne.state
    (by decide) (by decide)).2.1

/-- Counterexample to C10 as stated: on the small chain a successful `ExecLegacyContent` call
runs the text handler and emits no event at all; the event manager stays empty. -/
theorem ExecLegacyContent_emits_no_message_event :
    (chainServer.ExecLegacyContent chainCtx ⟨some textContent, "cosmos1gov"⟩).1 = .ok {}
      ∧ emittedEvents (callsSince chainCtx
          (chainServer.ExecLegacyContent chainCtx ⟨some textContent, "cosmos1gov"⟩).2) = []
      ∧ (chainServer.ExecLegacyContent chainCtx ⟨some textContent, "cosmos1gov"⟩).2.state.events
          = []
      ∧ (chainServer.ExecLegacyContent chainCtx
          ⟨some textContent, "cosmos1gov"⟩).2.state.executed = [textContent] := by
  decide

/-- C10, amended: when the two voting-period-start event types differ from `EventTypeMessage`,
every successful call of `SubmitProposal`, `Deposit`, `Vote` or `VoteWeighted` emits exactly one
event of type `EventTypeMessage`, the event whose module attribute is `AttributeValueCategory`
and whose sender attribute is the proposer, depositor or voter string of the message (for the
two vote handlers it is the only event emitted); `ExecLegacyContent` emits no event itself,
whatever its outcome. -/
theorem message_event_once (k : msgServer σ) (ctx : Context σ)
    (hsubmit : k.types.EventTypeSubmitProposal ≠ k.sdk.EventTypeMessage)
    (hdeposit : k.types.EventTypeProposalDeposit ≠ k.sdk.EventTypeMessage) :
    (∀ (msg : v1beta2.MsgSubmitProposal) (resp : v1beta2.MsgSubmitProposalResponse),
        (k.SubmitProposal ctx msg).1 = .ok resp →
        (emittedEvents (callsSince ctx (k.SubmitProposal ctx msg).2)).filter
            (fun e => decide (e.Typ = k.sdk.EventTypeMessage))
          = [k.messageEvent msg.Proposer])
      ∧ (∀ (msg : v1beta2.MsgDeposit) (resp : v1beta2.MsgDepositResponse),
        (k.Deposit ctx msg).1 = .ok resp →
        (emittedEvents (callsSince ctx (k.Deposit ctx msg).2)).filter
            (fun e => decide (e.Typ = k.sdk.EventTypeMessage))
          = [k.messageEvent msg.Depositor])
      ∧ (∀ (msg : v1beta2.MsgVote) (resp : v1beta2.MsgVoteResponse),
        (k.Vote ctx msg).1 = .ok resp →
        emittedEvents (callsSince ctx (k.Vote ctx msg).2) = [k.messageEvent msg.Voter]
          ∧ (k.messageEvent msg.Voter).Typ = k.sdk.EventTypeMessage)
      ∧ (∀ (msg : v1beta2.MsgVoteWeighted) (resp : v1beta2.MsgVoteWeightedResponse),
        (k.VoteWeighted ctx msg).1 = .ok resp →
        emittedEvents (callsSince ctx (k.VoteWeighted ctx msg).2) = [k.messageEvent msg.Voter]
          ∧ (k.messageEvent msg.Voter).Typ = k.sdk.EventTypeMessage)
      ∧ (∀ msg : v1beta2.MsgExecLegacyContent,
        emittedEvents (callsSince ctx (k.ExecLegacyContent ctx msg).2) = []) := by
  refine ⟨fun msg resp h => ?_, fun msg resp h => ?_, fun msg resp h => ?_,
    fun msg resp h => ?_, fun msg => ?_⟩
  · cases hm : msg.GetMsgs with
    | error e => simp [msgServer.SubmitProposal, hm] at h
    | ok msgs =>
      rcases hs : k.Keeper.SubmitProposal ctx.state msgs msg.Metadata with ⟨r, s1⟩
      cases r with
      | error e => simp [msgServer.SubmitProposal, hm, Keeper.callSubmitProposal, hs] at h
      | ok proposal =>
        cases hb : k.sdk.Marshal proposal with
        | error e =>
          simp [msgServer.SubmitProposal, hm, Keeper.callSubmitProposal, hs, hb] at h
        | ok bytes =>
          rcases hd : k.Keeper.AddDeposit
            (k.sdk.ConsumeGas s1 (mulUint64 (mulUint64 3 k.sdk.WriteCostPerByte) bytes.length)
              "submit proposal")
            proposal.ProposalId (k.sdk.addressIgnoringError msg.Proposer) msg.InitialDeposit
            with ⟨r2, s2⟩
          cases r2 with
          | error e =>
            simp [msgServer.SubmitProposal, hm, Keeper.callSubmitProposal, hs, hb,
              Sdk.callConsumeGas, Keeper.callAddDeposit, hd] at h
          | ok votingStarted =>
            cases votingStarted <;>
              simp [msgServer.SubmitProposal, hm, Keeper.callSubmitProposal, hs, hb,
                Sdk.callConsumeGas, Keeper.callAddDeposit, hd, Sdk.callEmitEvent, callsSince,
                emittedEvents, msgServer.messageEvent, NewEvent, hsubmit]
  · cases ha : k.sdk.AccAddressFromBech32 msg.Depositor with
    | error e => simp [msgServer.Deposit, ha] at h
    | ok addr =>
      rcases hd : k.Keeper.AddDeposit ctx.state msg.ProposalId addr msg.Amount with ⟨r, s⟩
      cases r with
      | error e => simp [msgServer.Deposit, ha, Keeper.callAddDeposit, hd] at h
      | ok votingStarted =>
        cases votingStarted <;>
          simp [msgServer.Deposit, ha, Keeper.callAddDeposit, hd, Sdk.callEmitEvent, callsSince,
            emittedEvents, msgServer.messageEvent, NewEvent, hdeposit]
  · cases ha : k.sdk.AccAddressFromBech32 msg.Voter with
    | error e => simp [msgServer.Vote, ha] at h
    | ok addr =>
      rcases hv : k.Keeper.AddVote ctx.state msg.ProposalId addr
        (v1beta2.NewNonSplitVoteOption msg.Option) with ⟨r, s⟩
      cases r with
      | some e => simp [msgServer.Vote, ha, Keeper.callAddVote, hv] at h
      | none =>
        simp [msgServer.Vote, ha, Keeper.callAddVote, hv, Sdk.callEmitEvent, callsSince,
          emittedEvents, msgServer.messageEvent, NewEvent]
  · cases ha : k.sdk.AccAddressFromBech32 msg.Voter with
    | error e => simp [msgServer.VoteWeighted, ha] at h
    | ok addr =>
      rcases hv : k.Keeper.AddVote ctx.state msg.ProposalId addr msg.Options with ⟨r, s⟩
      cases r with
      | some e => simp [msgServer.VoteWeighted, ha, Keeper.callAddVote, hv] at h
      | none =>
        simp [msgServer.VoteWeighted, ha, Keeper.callAddVote, hv, Sdk.callEmitEvent,
          callsSince, emittedEvents, msgServer.messageEvent, NewEvent]
  · simp only [msgServer.ExecLegacyContent, Keeper.callGetGovernanceAccount,
      callLegacyHandler]
    split
    · simp [callsSince, emittedEvents]
    · split
      · simp [callsSince, emittedEvents]
      · split
        · simp [callsSince, emittedEvents]
        · split <;> rename_i heq <;> simp only [Prod.mk.injEq] at heq <;> rw [← heq.2] <;>
            simp [callsSince, emittedEvents]

/-- Witness of C10 on the small chain: a successful initial deposit that starts the voting
period emits two events, one of them of type `message`. -/
theorem message_event_once_witness :
    (emittedEvents (callsSince chainCtxOne
        (chainServer.Deposit chainCtxOne ⟨1, "cosmos1val", [⟨"stake", 10000000⟩]⟩).2)).filter
        (fun e => decide (e.Typ = "message"))
      = [⟨"message", [⟨"module", "governance"⟩, ⟨"sender", "cosmos1val"⟩]⟩] :=
  (message_event_once chainServer chainCtxOne (by decide) (by decide)).2.1
    ⟨1, "cosmos1val", [⟨"stake", 10000000⟩]⟩ {} (by decide)

/-! ## Failing calls -/

/-- After `GetMsgs` the handler `SubmitProposal` runs the keeper on the state of the context. -/
theorem SubmitProposal_of_msgs (k : msgServer σ) (ctx : Context σ)
    (msg : v1beta2.MsgSubmitProposal) (msgs : List v1beta2.Msg) (r : Except Error v1beta2.Proposal)
    (s : σ) (hmsgs : msg.GetMsgs = .ok msgs)
    (hstore : k.Keeper.SubmitProposal ctx.state msgs msg.Metadata = (r, s)) :
    k.SubmitProposal ctx msg =
      (match r with
       | .error err => (.error err, ⟨s, ctx.calls ++ [Call.SubmitProposal msgs msg.Metadata]⟩)
       | .ok proposal =>
         match k.sdk.Marshal proposal with
         | .error err =>
           (.error err, ⟨s, ctx.calls ++ [Call.SubmitProposal msgs msg.Metadata]⟩)
         | .ok bytes =>
           match k.Keeper.AddDeposit
               (k.sdk.ConsumeGas s
                 (mulUint64 (mulUint64 3 k.sdk.WriteCostPerByte) bytes.length) "submit proposal")
               proposal.ProposalId (k.sdk.addressIgnoringError msg.Proposer)
               msg.InitialDeposit with
           | (.error err, s2) =>
             (.error err,
              ⟨s2, ctx.calls ++ [Call.SubmitProposal msgs msg.Metadata,
                Call.ConsumeGas (mulUint64 (mulUint64 3 k.sdk.WriteCostPerByte) bytes.length)
                  "submit proposal",
                Call.AddDeposit proposal.ProposalId (k.sdk.addressIgnoringError msg.Proposer)
                  msg.InitialDeposit]⟩)
           | (.ok votingStarted, s2) =>
             (.ok ⟨proposal.ProposalId⟩,
              ⟨if votingStarted then
                  k.sdk.EmitEvent (k.sdk.EmitEvent s2 (k.messageEvent msg.Proposer))
                    (votingPeriodStartEvent k k.types.EventTypeSubmitProposal
                      proposal.ProposalId)
                else k.sdk.EmitEvent s2 (k.messageEvent msg.Proposer),
               ctx.calls ++ [Call.SubmitProposal msgs msg.Metadata,
                Call.ConsumeGas (mulUint64 (mulUint64 3 k.sdk.WriteCostPerByte) bytes.length)
                  "submit proposal",
                Call.AddDeposit proposal.ProposalId (k.sdk.addressIgnoringError msg.Proposer)
                  msg.InitialDeposit,
                Call.EmitEvent (k.messageEvent msg.Proposer)] ++
                (if votingStarted then
                  [Call.EmitEvent (votingPeriodStartEvent k k.types.EventTypeSubmitProposal
                    proposal.ProposalId)]
                 else [])⟩)) := by
  cases r with
  | error err => simp [msgServer.SubmitProposal, hmsgs, Keeper.callSubmitProposal, hstore]
  | ok proposal =>
    cases hb : k.sdk.Marshal proposal with
    | error err => simp [msgServer.SubmitProposal, hmsgs, Keeper.callSubmitProposal, hstore, hb]
    | ok bytes =>
      rcases hd : k.Keeper.AddDeposit
          (k.sdk.ConsumeGas s
            (mulUint64 (mulUint64 3 k.sdk.WriteCostPerByte) bytes.length) "submit proposal")
          proposal.ProposalId (k.sdk.addressIgnoringError msg.Proposer)
          msg.InitialDeposit with ⟨r2, s2⟩
      cases r2 with
      | error err =>
        simp [msgServer.SubmitProposal, hmsgs, Keeper.callSubmitProposal, hstore, hb,
          Sdk.callConsumeGas, Keeper.callAddDeposit, hd]
      | ok votingStarted =>
        cases votingStarted <;>
          simp [msgServer.SubmitProposal, hmsgs, Keeper.callSubmitProposal, hstore, hb,
            Sdk.callConsumeGas, Keeper.callAddDeposit, hd, Sdk.callEmitEvent,
            votingPeriodStartEvent]

/-- The handler `SubmitProposal` on a request that does not unpack: nothing is called. -/
theorem SubmitProposal_of_unpack_error (k : msgServer σ) (ctx : Context σ)
    (msg : v1beta2.MsgSubmitProposal) (err : Error) (hmsgs : msg.GetMsgs = .error err) :
    k.SubmitProposal ctx msg = (.error err, ctx) := by
  simp [msgServer.SubmitProposal, hmsgs]

/-- The handler `Deposit` once the depositor is decoded. -/
theorem Deposit_of_address (k : msgServer σ) (ctx : Context σ) (msg : v1beta2.MsgDeposit)
    (addr : AccAddress) (r : Except Error Bool) (s : σ)
    (haddr : k.sdk.AccAddressFromBech32 msg.Depositor = .ok addr)
    (hdep : k.Keeper.AddDeposit ctx.state msg.ProposalId addr msg.Amount = (r, s)) :
    k.Deposit ctx msg =
      (match r with
       | .error err =>
         (.error err, ⟨s, ctx.calls ++ [Call.AddDeposit msg.ProposalId addr msg.Amount]⟩)
       | .ok votingStarted =>
         (.ok {},
          ⟨if votingStarted then
              k.sdk.EmitEvent (k.sdk.EmitEvent s (k.messageEvent msg.Depositor))
                (votingPeriodStartEvent k k.types.EventTypeProposalDeposit msg.ProposalId)
            else k.sdk.EmitEvent s (k.messageEvent msg.Depositor),
           ctx.calls ++ [Call.AddDeposit msg.ProposalId addr msg.Amount,
             Call.EmitEvent (k.messageEvent msg.Depositor)] ++
             (if votingStarted then
               [Call.EmitEvent
                 (votingPeriodStartEvent k k.types.EventTypeProposalDeposit msg.ProposalId)]
              else [])⟩)) := by
  cases r with
  | error err => simp [msgServer.Deposit, haddr, Keeper.callAddDeposit, hdep]
  | ok votingStarted =>
    cases votingStarted <;>
      simp [msgServer.Deposit, haddr, Keeper.callAddDeposit, hdep, Sdk.callEmitEvent,
        votingPeriodStartEvent]

/-- The handler `VoteWeighted` once the voter is decoded. -/
theorem VoteWeighted_of_address (k : msgServer σ) (ctx : Context σ)
    (msg : v1beta2.MsgVoteWeighted) (addr : AccAddress) (r : Option Error) (s : σ)
    (haddr : k.sdk.AccAddressFromBech32 msg.Voter = .ok addr)
    (hvote : k.Keeper.AddVote ctx.state msg.ProposalId addr msg.Options = (r, s)) :
    k.VoteWeighted ctx msg =
      (match r with
       | some err =>
         (.error err, ⟨s, ctx.calls ++ [Call.AddVote msg.ProposalId addr msg.Options]⟩)
       | none =>
         (.ok {},
          ⟨k.sdk.EmitEvent s (k.messageEvent msg.Voter),
           ctx.calls ++ [Call.AddVote msg.ProposalId addr msg.Options,
             Call.EmitEvent (k.messageEvent msg.Voter)]⟩)) := by
  cases r <;> simp [msgServer.VoteWeighted, haddr, Keeper.callAddVote, hvote, Sdk.callEmitEvent]

/-- The handler `Vote` once the voter is decoded. -/
theorem Vote_of_address (k : msgServer σ) (ctx : Context σ) (msg : v1beta2.MsgVote)
    (addr : AccAddress) (r : Option Error) (s : σ)
    (haddr : k.sdk.AccAddressFromBech32 msg.Voter = .ok addr)
    (hvote : k.Keeper.AddVote ctx.state msg.ProposalId addr
      (v1beta2.NewNonSplitVoteOption msg.Option) = (r, s)) :
    k.Vote ctx msg =
      (match r with
       | some err =>
         (.error err,
          ⟨s, ctx.calls ++
            [Call.AddVote msg.ProposalId addr (v1beta2.NewNonSplitVoteOption msg.Option)]⟩)
       | none =>
         (.ok {},
          ⟨k.sdk.EmitEvent s (k.messageEvent msg.Voter),
           ctx.calls ++
            [Call.AddVote msg.ProposalId addr (v1beta2.NewNonSplitVoteOption msg.Option),
             Call.EmitEvent (k.messageEvent msg.Voter)]⟩)) := by
  cases r <;> simp [msgServer.Vote, haddr, Keeper.callAddVote, hvote, Sdk.callEmitEvent]

/-- The handler `ExecLegacyContent` emits no event, on any path. -/
theorem ExecLegacyContent_emits_nothing (k : msgServer σ) (ctx : Context σ)
    (msg : v1beta2.MsgExecLegacyContent) :
    emittedEvents (callsSince ctx (k.ExecLegacyContent ctx msg).2) = [] := by
  simp only [msgServer.ExecLegacyContent, Keeper.callGetGovernanceAccount, callLegacyHandler]
  split
  · simp [callsSince, emittedEvents]
  · split
    · simp [callsSince, emittedEvents]
    · split
      · simp [callsSince, emittedEvents]
      · split <;> rename_i heq <;> simp only [Prod.mk.injEq] at heq <;> rw [← heq.2] <;>
          simp [callsSince, emittedEvents]

/-- C11: a call of `SubmitProposal`, `ExecLegacyContent`, `Vote`, `VoteWeighted` or `Deposit`
that returns an error has emitted no event: on every path of the five handlers the calls of
`EmitEvent` come after the last return of an error. -/
theorem error_emits_no_event (k : msgServer σ) (ctx : Context σ) :
    (∀ (msg : v1beta2.MsgSubmitProposal) (e : Error),
        (k.SubmitProposal ctx msg).1 = .error e →
        emittedEvents (callsSince ctx (k.SubmitProposal ctx msg).2) = [])
      ∧ (∀ (msg : v1beta2.MsgExecLegacyContent) (e : Error),
        (k.ExecLegacyContent ctx msg).1 = .error e →
        emittedEvents (callsSince ctx (k.ExecLegacyContent ctx msg).2) = [])
      ∧ (∀ (msg : v1beta2.MsgVote) (e : Error),
        (k.Vote ctx msg).1 = .error e →
        emittedEvents (callsSince ctx (k.Vote ctx msg).2) = [])
      ∧ (∀ (msg : v1beta2.MsgVoteWeighted) (e : Error),
        (k.VoteWeighted ctx msg).1 = .error e →
        emittedEvents (callsSince ctx (k.VoteWeighted ctx msg).2) = [])
      ∧ (∀ (msg : v1beta2.MsgDeposit) (e : Error),
        (k.Deposit ctx msg).1 = .error e →
        emittedEvents (callsSince ctx (k.Deposit ctx msg).2) = []) := by
  refine ⟨fun msg e h => ?_, fun msg e _ => ExecLegacyContent_emits_nothing k ctx msg,
    fun msg e h => ?_, fun msg e h => ?_, fun msg e h => ?_⟩
  · cases hm : msg.GetMsgs with
    | error err => simp [SubmitProposal_of_unpack_error k ctx msg err hm, callsSince,
        emittedEvents]
    | ok msgs =>
      rcases hs : k.Keeper.SubmitProposal ctx.state msgs msg.Metadata with ⟨r, s⟩
      rw [SubmitProposal_of_msgs k ctx msg msgs r s hm hs] at h ⊢
      cases r with
      | error err => simp [callsSince, emittedEvents]
      | ok proposal =>
        simp only at h ⊢
        cases hb : k.sdk.Marshal proposal with
        | error err => simp [callsSince, emittedEvents]
        | ok bytes =>
          rw [hb] at h
          simp only at h ⊢
          split at h
          · rename_i heq
            simp [heq, callsSince, emittedEvents]
          · simp at h
  · cases ha : k.sdk.AccAddressFromBech32 msg.Voter with
    | error err => simp [msgServer.Vote, ha, callsSince, emittedEvents]
    | ok addr =>
      rcases hv : k.Keeper.AddVote ctx.state msg.ProposalId addr
        (v1beta2.NewNonSplitVoteOption msg.Option) with ⟨r, s⟩
      rw [Vote_of_address k ctx msg addr r s ha hv] at h ⊢
      cases r with
      | some err => simp [callsSince, emittedEvents]
      | none => simp at h
  · cases ha : k.sdk.AccAddressFromBech32 msg.Voter with
    | error err => simp [msgServer.VoteWeighted, ha, callsSince, emittedEvents]
    | ok addr =>
      rcases hv : k.Keeper.AddVote ctx.state msg.ProposalId addr msg.Options with ⟨r, s⟩
      rw [VoteWeighted_of_address k ctx msg addr r s ha hv] at h ⊢
      cases r with
      | some err => simp [callsSince, emittedEvents]
      | none => simp at h
  · cases ha : k.sdk.AccAddressFromBech32 msg.Depositor with
    | error err => simp [msgServer.Deposit, ha, callsSince, emittedEvents]
    | ok addr =>
      rcases hd : k.Keeper.AddDeposit ctx.state msg.ProposalId addr msg.Amount with ⟨r, s⟩
      rw [Deposit_of_address k ctx msg addr r s ha hd] at h ⊢
      cases r with
      | error err => simp [callsSince, emittedEvents]
      | ok v => simp at h

/-- Witness of C11 on the small chain: a deposit on the missing proposal 10 fails, and no
event has been emitted. -/
theorem error_emits_no_event_witness :
    (chainServer.Deposit chainCtx ⟨10, "cosmos1val", []⟩).1 =
        .error (.Wrap (.other "gov" 2 "unknown proposal") "10")
      ∧ emittedEvents (callsSince chainCtx
          (chainServer.Deposit chainCtx ⟨10, "cosmos1val", []⟩).2) = [] :=
  ⟨by decide, (error_emits_no_event chainServer chainCtx).2.2.2.2 ⟨10, "cosmos1val", []⟩
    (.Wrap (.other "gov" 2 "unknown proposal") "10") (by decide)⟩

/-! ## Malformed addresses -/

/-- C17: when the voter of a `Vote` or `VoteWeighted` request, or the depositor of a `Deposit`
request, does not decode as an account address, the handler returns the error of the decoder
and the context it was given: no call is made on the vote ledger or on the deposit engine, and
no event is emitted. -/
theorem malformed_address_rejected (k : msgServer σ) (ctx : Context σ) :
    (∀ (msg : v1beta2.MsgVote) (e : Error),
        k.sdk.AccAddressFromBech32 msg.Voter = .error e →
        k.Vote ctx msg = (.error e, ctx)
          ∧ callsSince ctx (k.Vote ctx msg).2 = []
          ∧ votesAdded (callsSince ctx (k.Vote ctx msg).2) = []
          ∧ emittedEvents (callsSince ctx (k.Vote ctx msg).2) = [])
      ∧ (∀ (msg : v1beta2.MsgVoteWeighted) (e : Error),
        k.sdk.AccAddressFromBech32 msg.Voter = .error e →
        k.VoteWeighted ctx msg = (.error e, ctx)
          ∧ callsSince ctx (k.VoteWeighted ctx msg).2 = []
          ∧ votesAdded (callsSince ctx (k.VoteWeighted ctx msg).2) = []
          ∧ emittedEvents (callsSince ctx (k.VoteWeighted ctx msg).2) = [])
      ∧ (∀ (msg : v1beta2.MsgDeposit) (e : Error),
        k.sdk.AccAddressFromBech32 msg.Depositor = .error e →
        k.Deposit ctx msg = (.error e, ctx)
          ∧ callsSince ctx (k.Deposit ctx msg).2 = []
          ∧ emittedEvents (callsSince ctx (k.Deposit ctx msg).2) = []) := by
  refine ⟨fun msg e h => ?_, fun msg e h => ?_, fun msg e h => ?_⟩
  · simp [msgServer.Vote, h, callsSince, votesAdded, emittedEvents]
  · simp [msgServer.VoteWeighted, h, callsSince, votesAdded, emittedEvents]
  · simp [msgServer.Deposit, h, callsSince, emittedEvents]

/-- Witness of C17 on the small chain: a vote on proposal 1 by `wrong address`. -/
theorem malformed_address_rejected_witness :
    chainServer.Vote chainCtxOne ⟨1, "wrong address", v1beta2.OptionYes⟩ =
      (.error (.other "undefined" 1 "decoding bech32 failed"), chainCtxOne) :=
  ((malformed_address_rejected chainServer chainCtxOne).1
    ⟨1, "wrong address", v1beta2.OptionYes⟩ (.other "undefined" 1 "decoding bech32 failed")
    (by decide)).1

/-! ## The proposer of `SubmitProposal` -/

/-- The address kept by `addr, _ := sdk.AccAddressFromBech32(str)` is the decoded address, and
the empty address when the string does not decode. -/
theorem addressIgnoringError_eq (sdk : Sdk σ) (str : String) :
    sdk.addressIgnoringError str = (sdk.AccAddressFromBech32 str).toOption.getD [] := by
  unfold Sdk.addressIgnoringError
  cases sdk.AccAddressFromBech32 str <;> rfl

/-- C18: the error of `SubmitProposal` is the error of unpacking the messages, else the error of
the keeper storing the proposal, else the error of serializing it, else the error of the
deposit engine; the decoder of the proposer contributes no error. Once the proposal is stored
and the storage gas charged, the deposit engine is called with the address decoded from the
proposer as depositor, and with the empty address when the proposer does not decode. -/
theorem SubmitProposal_proposer_unchecked (k : msgServer σ) (ctx : Context σ)
    (msg : v1beta2.MsgSubmitProposal) :
    errorOf (k.SubmitProposal ctx msg).1 =
        (match msg.GetMsgs with
         | .error err => some err
         | .ok msgs =>
           match (k.Keeper.SubmitProposal ctx.state msgs msg.Metadata).1 with
           | .error err => some err
           | .ok proposal =>
             match k.sdk.Marshal proposal with
             | .error err => some err
             | .ok bytes =>
               errorOf (k.Keeper.AddDeposit
                 (k.sdk.ConsumeGas (k.Keeper.SubmitProposal ctx.state msgs msg.Metadata).2
                   (mulUint64 (mulUint64 3 k.sdk.WriteCostPerByte) bytes.length)
                   "submit proposal")
                 proposal.ProposalId
                 ((k.sdk.AccAddressFromBech32 msg.Proposer).toOption.getD [])
                 msg.InitialDeposit).1)
      ∧ (∀ (msgs : List v1beta2.Msg) (proposal : v1beta2.Proposal) (s : σ) (bytes : List Nat)
          (e : Error),
          msg.GetMsgs = .ok msgs →
          k.Keeper.SubmitProposal ctx.state msgs msg.Metadata = (.ok proposal, s) →
          k.sdk.Marshal proposal = .ok bytes →
          k.sdk.AccAddressFromBech32 msg.Proposer = .error e →
          (callsSince ctx (k.SubmitProposal ctx msg).2).take 3 =
              [Call.SubmitProposal msgs msg.Metadata,
               Call.ConsumeGas (mulUint64 (mulUint64 3 k.sdk.WriteCostPerByte) bytes.length)
                 "submit proposal",
               Call.AddDeposit proposal.ProposalId [] msg.InitialDeposit]
            ∧ depositsAdded (callsSince ctx (k.SubmitProposal ctx msg).2)
              = [(proposal.ProposalId, [], msg.InitialDeposit)]
            ∧ errorOf (k.SubmitProposal ctx msg).1 =
              errorOf (k.Keeper.AddDeposit
                (k.sdk.ConsumeGas s
                  (mulUint64 (mulUint64 3 k.sdk.WriteCostPerByte) bytes.length)
                  "submit proposal")
                proposal.ProposalId [] msg.InitialDeposit).1)
      ∧ (∀ (msgs : List v1beta2.Msg) (proposal : v1beta2.Proposal) (s : σ) (bytes : List Nat)
          (addr : AccAddress),
          msg.GetMsgs = .ok msgs →
          k.Keeper.SubmitProposal ctx.state msgs msg.Metadata = (.ok proposal, s) →
          k.sdk.Marshal proposal = .ok bytes →
          k.sdk.AccAddressFromBech32 msg.Proposer = .ok addr →
          (callsSince ctx (k.SubmitProposal ctx msg).2).take 3 =
              [Call.SubmitProposal msgs msg.Metadata,
               Call.ConsumeGas (mulUint64 (mulUint64 3 k.sdk.WriteCostPerByte) bytes.length)
                 "submit proposal",
               Call.AddDeposit proposal.ProposalId addr msg.InitialDeposit]
            ∧ depositsAdded (callsSince ctx (k.SubmitProposal ctx msg).2)
              = [(proposal.ProposalId, addr, msg.InitialDeposit)]
            ∧ errorOf (k.SubmitProposal ctx msg).1 =
              errorOf (k.Keeper.AddDeposit
                (k.sdk.ConsumeGas s
                  (mulUint64 (mulUint64 3 k.sdk.WriteCostPerByte) bytes.length)
                  "submit proposal")
                proposal.ProposalId addr msg.InitialDeposit).1) := by
  have hcalls : ∀ (msgs : List v1beta2.Msg) (proposal : v1beta2.Proposal) (s : σ)
      (bytes : List Nat) (depositor : AccAddress),
      msg.GetMsgs = .ok msgs →
      k.Keeper.SubmitProposal ctx.state msgs msg.Metadata = (.ok proposal, s) →
      k.sdk.Marshal proposal = .ok bytes →
      k.sdk.addressIgnoringError msg.Proposer = depositor →
      (callsSince ctx (k.SubmitProposal ctx msg).2).take 3 =
          [Call.SubmitProposal msgs msg.Metadata,
           Call.ConsumeGas (mulUint64 (mulUint64 3 k.sdk.WriteCostPerByte) bytes.length)
             "submit proposal",
           Call.AddDeposit proposal.ProposalId depositor msg.InitialDeposit]
        ∧ depositsAdded (callsSince ctx (k.SubmitProposal ctx msg).2)
          = [(proposal.ProposalId, depositor, msg.InitialDeposit)]
        ∧ errorOf (k.SubmitProposal ctx msg).1 =
          errorOf (k.Keeper.AddDeposit
            (k.sdk.ConsumeGas s
              (mulUint64 (mulUint64 3 k.sdk.WriteCostPerByte) bytes.length)
              "submit proposal")
            proposal.ProposalId depositor msg.InitialDeposit).1 := by
    intro msgs proposal s bytes depositor hm hs hb hdep
    rw [SubmitProposal_of_msgs k ctx msg msgs (.ok proposal) s hm hs]
    simp only [hb, hdep]
    rcases k.Keeper.AddDeposit
      (k.sdk.ConsumeGas s
        (mulUint64 (mulUint64 3 k.sdk.WriteCostPerByte) bytes.length) "submit proposal")
      proposal.ProposalId depositor msg.InitialDeposit with ⟨r2, s2⟩
    cases r2 with
    | error err => simp [callsSince, errorOf, depositsAdded]
    | ok v => cases v <;> simp [callsSince, errorOf, depositsAdded]
  refine ⟨?_, fun msgs proposal s bytes e hm hs hb he =>
      hcalls msgs proposal s bytes [] hm hs hb (by simp [Sdk.addressIgnoringError, he]),
    fun msgs proposal s bytes addr hm hs hb ha =>
      hcalls msgs proposal s bytes addr hm hs hb (by simp [Sdk.addressIgnoringError, ha])⟩
  rw [← addressIgnoringError_eq]
  cases hm : msg.GetMsgs with
  | error err => simp [SubmitProposal_of_unpack_error k ctx msg err hm, errorOf]
  | ok msgs =>
    rcases hs : k.Keeper.SubmitProposal ctx.state msgs msg.Metadata with ⟨r, s⟩
    rw [SubmitProposal_of_msgs k ctx msg msgs r s hm hs]
    simp only [hs]
    cases r with
    | error err => simp [errorOf]
    | ok proposal =>
      simp only
      cases hb : k.sdk.Marshal proposal with
      | error err => simp [errorOf]
      | ok bytes =>
        simp only
        rcases k.Keeper.AddDeposit
          (k.sdk.ConsumeGas s
            (mulUint64 (mulUint64 3 k.sdk.WriteCostPerByte) bytes.length) "submit proposal")
          proposal.ProposalId (k.sdk.addressIgnoringError msg.Proposer)
          msg.InitialDeposit with ⟨r2, s2⟩
        cases r2 <;> simp [errorOf]

/-- Witness of C18 on the small chain, over the keeper that refuses the empty depositor: with
the proposer `cosmos1val` the deposit is made from the validator's address and the call
succeeds; with the proposer `wrong address` the proposal is stored and charged all the same,
the deposit is made from the empty address, and the call fails with the error of the deposit
engine. -/
theorem SubmitProposal_proposer_unchecked_witness :
    depositsAdded (callsSince chainCtx (guardedServer.SubmitProposal chainCtx
        ⟨[some (.ExecLegacyContent ⟨some textContent, "cosmos1gov"⟩)], [⟨"stake", 10000000⟩],
          "cosmos1val", []⟩).2) = [(1, valAddress, [⟨"stake", 10000000⟩])]
      ∧ (guardedServer.SubmitProposal chainCtx
          ⟨[some (.ExecLegacyContent ⟨some textContent, "cosmos1gov"⟩)], [⟨"stake", 10000000⟩],
            "cosmos1val", []⟩).1 = .ok ⟨1⟩
      ∧ (callsSince chainCtx (guardedServer.SubmitProposal chainCtx
          ⟨[some (.ExecLegacyContent ⟨some textContent, "cosmos1gov"⟩)], [⟨"stake", 10000000⟩],
            "wrong address", []⟩).2).take 3 =
        [Call.SubmitProposal [.ExecLegacyContent ⟨some textContent, "cosmos1gov"⟩] [],
         Call.ConsumeGas 180 "submit proposal",
         Call.AddDeposit 1 [] [⟨"stake", 10000000⟩]]
      ∧ (guardedServer.SubmitProposal chainCtx
          ⟨[some (.ExecLegacyContent ⟨some textContent, "cosmos1gov"⟩)], [⟨"stake", 10000000⟩],
            "wrong address", []⟩).1 = .error (.other "sdk" 7 "invalid address") :=
  ⟨((SubmitProposal_proposer_unchecked guardedServer chainCtx
      ⟨[some (.ExecLegacyContent ⟨some textContent, "cosmos1gov"⟩)], [⟨"stake", 10000000⟩],
        "cosmos1val", []⟩).2.2
      [.ExecLegacyContent ⟨some textContent, "cosmos1gov"⟩]
      ⟨1, [.ExecLegacyContent ⟨some textContent, "cosmos1gov"⟩], []⟩ ⟨2, [], 0, []⟩ [1, 0]
      valAddress (by decide) (by decide) (by decide) (by decide)).2.1,
   by decide,
   ((SubmitProposal_proposer_unchecked guardedServer chainCtx
      ⟨[some (.ExecLegacyContent ⟨some textContent, "cosmos1gov"⟩)], [⟨"stake", 10000000⟩],
        "wrong address", []⟩).2.1
      [.ExecLegacyContent ⟨some textContent, "cosmos1gov"⟩]
      ⟨1, [.ExecLegacyContent ⟨some textContent, "cosmos1gov"⟩], []⟩ ⟨2, [], 0, []⟩ [1, 0]
      (.other "undefined" 1 "decoding bech32 failed")
      (by decide) (by decide) (by decide) (by decide)).1,
   by decide⟩

/-! ## The tally -/

/-- A ratio of integers is below a decimal parameter exactly when the integer comparison of
the tally holds. -/
theorem ratio_lt_dec_iff (a b : Int) (hb : 0 < b) (p : Dec) :
    ((a : ℚ) / b < p.toRat) ↔ (a * 10 ^ Precision < p.i * b) := by
  have hb' : (0 : ℚ) < b := by exact_mod_cast hb
  have h10 : (0 : ℚ) < 10 ^ Precision := by positivity
  rw [Dec.toRat, div_lt_div_iff₀ hb' h10]
  exact_mod_cast Iff.rfl

/-- A decimal parameter is below a ratio of integers exactly when the integer comparison of
the tally holds. -/
theorem dec_lt_ratio_iff (a b : Int) (hb : 0 < b) (p : Dec) :
    (p.toRat < (a : ℚ) / b) ↔ (p.i * b < a * 10 ^ Precision) := by
  have hb' : (0 : ℚ) < b := by exact_mod_cast hb
  have h10 : (0 : ℚ) < 10 ^ Precision := by positivity
  rw [Dec.toRat, div_lt_div_iff₀ h10 hb']
  exact_mod_cast Iff.rfl

/-- A decimal parameter is at most a ratio of integers exactly when the integer comparison of
the tally holds. -/
theorem dec_le_ratio_iff (a b : Int) (hb : 0 < b) (p : Dec) :
    (p.toRat ≤ (a : ℚ) / b) ↔ (p.i * b ≤ a * 10 ^ Precision) := by
  have hb' : (0 : ℚ) < b := by exact_mod_cast hb
  have h10 : (0 : ℚ) < 10 ^ Precision := by positivity
  rw [Dec.toRat, div_le_div_iff₀ h10 hb']
  exact_mod_cast Iff.rfl

/-- C14: for every tally of non-negative integers and every total bonded power `> 0`, with
`participating > abstain`, the outcome computed on integers is `Rejected` if
`participating / total_power < quorum`, otherwise `VetoRejected` if
`no_with_veto / participating ≥ veto_threshold`, otherwise `Passed` if
`yes / (participating - abstain) > threshold`, otherwise `Rejected`, the ratios being exact
rational numbers. Hence a yes ratio equal to `threshold` does not pass, and with the quorum
reached a veto ratio equal to `veto_threshold` is vetoed. -/
theorem tallyOutcome_spec (p : TallyParams) (t : TallyResult) (total_power : Nat)
    (htotal : 0 < total_power) (hpart : t.abstain < t.participating) :
    tallyOutcome p t total_power =
        (if participationRatio t total_power < p.quorum.toRat then Outcome.Rejected
         else if p.veto_threshold.toRat ≤ vetoRatio t then Outcome.VetoRejected
         else if p.threshold.toRat < yesRatio t then Outcome.Passed
         else Outcome.Rejected)
      ∧ (yesRatio t = p.threshold.toRat → tallyOutcome p t total_power ≠ Outcome.Passed)
      ∧ (¬ participationRatio t total_power < p.quorum.toRat →
          vetoRatio t = p.veto_threshold.toRat →
          tallyOutcome p t total_power = Outcome.VetoRejected) := by
  have hpos : (0 : Int) < t.participating := by omega
  have hden : (0 : Int) < (t.participating : Int) - t.abstain := by omega
  have h1 : participationRatio t total_power < p.quorum.toRat ↔
      (t.participating : Int) * 10 ^ Precision < p.quorum.i * total_power := by
    have := ratio_lt_dec_iff t.participating total_power (by exact_mod_cast htotal) p.quorum
    simpa [participationRatio] using this
  have h2 : p.veto_threshold.toRat ≤ vetoRatio t ↔
      p.veto_threshold.i * t.participating ≤ (t.no_with_veto : Int) * 10 ^ Precision := by
    have := dec_le_ratio_iff t.no_with_veto t.participating hpos p.veto_threshold
    simpa [vetoRatio] using this
  have h3 : p.threshold.toRat < yesRatio t ↔
      p.threshold.i * ((t.participating : Int) - t.abstain) < (t.yes : Int) * 10 ^ Precision := by
    have := dec_lt_ratio_iff t.yes ((t.participating : Int) - t.abstain) hden p.threshold
    simpa [yesRatio] using this
  have hmain : tallyOutcome p t total_power =
      (if participationRatio t total_power < p.quorum.toRat then Outcome.Rejected
       else if p.veto_threshold.toRat ≤ vetoRatio t then Outcome.VetoRejected
       else if p.threshold.toRat < yesRatio t then Outcome.Passed
       else Outcome.Rejected) := by
    simp only [tallyOutcome, h1, h2, h3]
  refine ⟨hmain, fun heq => ?_, fun hq hv => ?_⟩
  · rw [hmain, heq]
    split_ifs <;> simp_all
  · rw [hmain, hv]
    simp [hq]

/-- Witness of C14: with the parameters of the test suite, 50 yes against 50 no out of a bonded
power of 100 is a yes ratio equal to the threshold 0.5, and the proposal does not pass. -/
theorem tallyOutcome_spec_witness :
    yesRatio ⟨50, 50, 0, 0⟩ = suiteTallyParams.threshold.toRat
      ∧ tallyOutcome suiteTallyParams ⟨50, 50, 0, 0⟩ 100 ≠ Outcome.Passed :=
  ⟨by norm_num [yesRatio, TallyResult.participating, suiteTallyParams, Dec.toRat, NewDecWithPrec,
      Precision],
   (tallyOutcome_spec suiteTallyParams ⟨50, 50, 0, 0⟩ 100 (by decide) (by decide)).2.1
    (by norm_num [yesRatio, TallyResult.participating, suiteTallyParams, Dec.toRat,
      NewDecWithPrec, Precision])⟩

/-- The running totals of a single voter of power `power` who casts the split of the test
suite, in units of `10 ^ -18`. -/
theorem tallyVotes_single_split (power : Nat) :
    tallyVotes [(power, suiteSplit)] =
      ⟨power * (6 * 10 ^ 17), power * (3 * 10 ^ 17), power * (5 * 10 ^ 16),
       power * (5 * 10 ^ 16)⟩ := by
  simp [tallyVotes, splitPower, suiteSplit, TallyResult.addShare, NewDecWithPrec, Precision,
    v1beta2.OptionYes, v1beta2.OptionNo, v1beta2.OptionAbstain, v1beta2.OptionNoWithVeto]

/-- Counterexample to C15 as stated: for a single voter holding all of a bonded power of 100
who casts the split, the participation ratio of the tally algorithm is not 0.95 and its veto
ratio is not 0.05/0.95; they are 1 and 0.05, since `participating` counts the abstain share. -/
theorem single_voter_split_ratios_differ :
    participationRatio (tallyVotes [(100, suiteSplit)]) (scaledPower 100) ≠ 95 / 100
      ∧ vetoRatio (tallyVotes [(100, suiteSplit)]) ≠ (5 / 100 : ℚ) / (95 / 100)
      ∧ participationRatio (tallyVotes [(100, suiteSplit)]) (scaledPower 100) = 1
      ∧ vetoRatio (tallyVotes [(100, suiteSplit)]) = 5 / 100 := by
  rw [tallyVotes_single_split]
  norm_num [participationRatio, vetoRatio, TallyResult.participating, scaledPower, Precision]

/-- C15, amended: with `quorum = 0.334`, `threshold = 0.5` and `veto_threshold = 0.334`, a
single voter holding all of the bonded power (any positive amount) who casts the split
`yes` 0.6, `no` 0.3, `abstain` 0.05, `no_with_veto` 0.05 yields, under the tally algorithm, the
yes ratio 0.6/0.95, the veto ratio 0.05 and the participation ratio 1, and the outcome is
`Passed`. -/
theorem single_voter_split_tally (power : Nat) (hpower : 0 < power) :
    yesRatio (tallyVotes [(power, suiteSplit)]) = (6 / 10 : ℚ) / (95 / 100)
      ∧ vetoRatio (tallyVotes [(power, suiteSplit)]) = 5 / 100
      ∧ participationRatio (tallyVotes [(power, suiteSplit)]) (scaledPower power) = 1
      ∧ tallyOutcome suiteTallyParams (tallyVotes [(power, suiteSplit)]) (scaledPower power)
          = Outcome.Passed := by
  have hp : (power : ℚ) ≠ 0 := by exact_mod_cast hpower.ne'
  rw [tallyVotes_single_split]
  refine ⟨?_, ?_, ?_, ?_⟩
  · simp only [yesRatio, TallyResult.participating]
    push_cast
    field_simp
    ring
  · simp only [vetoRatio, TallyResult.participating]
    push_cast
    field_simp
    ring
  · simp only [participationRatio, TallyResult.participating, scaledPower, Precision]
    push_cast
    field_simp
    ring
  · simp only [tallyOutcome, TallyResult.participating, scaledPower, Precision,
      suiteTallyParams, NewDecWithPrec]
    have hp' : (0 : Int) < power := by exact_mod_cast hpower
    push_cast
    rw [if_neg (by nlinarith), if_neg (by nlinarith), if_pos (by nlinarith)]

/-- Witness of C15: a bonded power of 100, all of it held by the voter. -/
theorem single_voter_split_tally_witness :
    tallyOutcome suiteTallyParams (tallyVotes [(100, suiteSplit)]) (scaledPower 100)
      = Outcome.Passed :=
  (single_voter_split_tally 100 (by decide)).2.2.2

/-! ## The validation of weighted votes -/

/-- The scan for a kind named twice finds none exactly when the kinds are pairwise distinct. -/
theorem hasDuplicate_eq_false_iff (l : List v1beta2.VoteOption) :
    hasDuplicate l = false ↔ l.Nodup := by
  induction l with
  | nil => simp [hasDuplicate]
  | cons o rest ih =>
    simp only [hasDuplicate, Bool.or_eq_false_iff, ih, List.nodup_cons]
    simp

/-- The sum of the weights as rational numbers is the sum of their scaled integers over
`10 ^ 18`. -/
theorem sum_toRat (ws : List Dec) :
    (ws.map Dec.toRat).sum = (((ws.map Dec.i).sum : Int) : ℚ) / 10 ^ Precision := by
  induction ws with
  | nil => simp
  | cons w rest ih =>
    simp only [List.map_cons, List.sum_cons, ih, Dec.toRat]
    push_cast
    ring

/-- A weight is positive as a rational number exactly when its scaled integer is. -/
theorem toRat_pos_iff (w : Dec) : 0 < w.toRat ↔ 0 < w.i := by
  have h10 : (0 : ℚ) < 10 ^ Precision := by positivity
  rw [Dec.toRat, div_pos_iff_of_pos_right h10]
  exact_mod_cast Iff.rfl

/-- The weights add up to 1 as rational numbers exactly when their scaled integers add up to
`10 ^ 18`. -/
theorem sum_toRat_eq_one_iff (ws : List Dec) :
    (ws.map Dec.toRat).sum = 1 ↔ (ws.map Dec.i).sum = 10 ^ Precision := by
  have h10 : (10 : ℚ) ^ Precision ≠ 0 := by positivity
  rw [sum_toRat, div_eq_one_iff_eq h10]
  exact_mod_cast Iff.rfl

/-- The integer check of the options says what the spec says of the decimals: not empty, no
kind twice, every weight greater than 0, and the weights sum to exactly 1. -/
theorem validOptions_iff (options : List (v1beta2.VoteOption × Dec)) :
    validOptions options = true ↔
      options ≠ [] ∧ (options.map Prod.fst).Nodup
        ∧ (∀ w ∈ options.map Prod.snd, (0 : ℚ) < w.toRat)
        ∧ ((options.map Prod.snd).map Dec.toRat).sum = 1 := by
  have hd := hasDuplicate_eq_false_iff (options.map Prod.fst)
  have hs := sum_toRat_eq_one_iff (options.map Prod.snd)
  simp only [List.map_map] at hs
  simp only [validOptions, Bool.and_eq_true, Bool.not_eq_true', decide_eq_true_eq,
    List.all_eq_true, List.isEmpty_eq_false, List.mem_map, forall_exists_index, and_imp,
    forall_apply_eq_imp_iff₂, toRat_pos_iff, List.map_map, hs]
  constructor
  · rintro ⟨⟨⟨h1, h2⟩, h3⟩, h4⟩
    exact ⟨by simpa using h1, hd.mp h2, h3, h4⟩
  · rintro ⟨h1, h2, h3, h4⟩
    exact ⟨⟨⟨by simpa using h1, hd.mpr h2⟩, h3⟩, h4⟩

/-- The options read by `parseOptions` keep the kinds, in order, and carry the decimals read
from the weights. -/
theorem parseOptions_some (options : v1beta2.WeightedVoteOptions) :
    ∀ weighted, parseOptions options = some weighted →
      weighted.map Prod.fst = options.map (fun o => o.Option)
        ∧ options.map (fun o => NewDecFromStr o.Weight) = (weighted.map Prod.snd).map some := by
  induction options with
  | nil =>
    intro weighted h
    simp only [parseOptions, Option.some.injEq] at h
    subst h
    simp
  | cons o rest ih =>
    intro weighted h
    simp only [parseOptions] at h
    cases hw : NewDecFromStr o.Weight with
    | none => simp [hw] at h
    | some w =>
      cases hr : parseOptions rest with
      | none => simp [hw, hr] at h
      | some ws =>
        simp only [hw, hr, Option.some.injEq] at h
        subst h
        obtain ⟨h1, h2⟩ := ih ws hr
        simp [h1, h2, hw]

/-- When every weight reads as a decimal, `parseOptions` returns the kinds paired with the
decimals. -/
theorem parseOptions_of_weights (options : v1beta2.WeightedVoteOptions) :
    ∀ weights : List Dec, options.map (fun o => NewDecFromStr o.Weight) = weights.map some →
      parseOptions options = some ((options.map (fun o => o.Option)).zip weights) := by
  induction options with
  | nil =>
    intro weights _
    simp [parseOptions]
  | cons o rest ih =>
    intro weights h
    cases weights with
    | nil => simp at h
    | cons w ws =>
      simp only [List.map_cons, List.cons.injEq] at h
      simp [parseOptions, h.1, ih ws h.2]

/-- On a proposal in its voting period the vote ledger accepts the options exactly when they
are not empty, name no kind twice, and their weights read as decimals that are all greater
than 0 and sum to exactly 1; every other vote is refused with `ErrInvalidVote`. -/
theorem AddVote_voting_period (s : Ledger) (id : Nat) (voter : AccAddress)
    (options : v1beta2.WeightedVoteOptions) (p : StoredProposal)
    (hp : s.proposal? id = some p) (hstatus : p.status = .VotingPeriod) :
    ((Ledger.AddVote s id voter options).1 = none ↔
        ∃ weights : List Dec,
          options.map (fun o => NewDecFromStr o.Weight) = weights.map some
            ∧ options ≠ [] ∧ (options.map (fun o => o.Option)).Nodup
            ∧ (∀ w ∈ weights, (0 : ℚ) < w.toRat) ∧ (weights.map Dec.toRat).sum = 1)
      ∧ ((Ledger.AddVote s id voter options).1 ≠ none →
          Ledger.AddVote s id voter options = (some ErrInvalidVote, s)) := by
  simp only [Ledger.AddVote, hp, hstatus, ne_eq, not_true_eq_false, if_false]
  cases hparse : parseOptions options with
  | none =>
    refine ⟨⟨fun h => by simp at h, ?_⟩, fun _ => rfl⟩
    rintro ⟨weights, hw, -⟩
    rw [parseOptions_of_weights options weights hw] at hparse
    simp at hparse
  | some weighted =>
    obtain ⟨hk, hw⟩ := parseOptions_some options weighted hparse
    have hv := validOptions_iff weighted
    by_cases hvalid : validOptions weighted = true
    · simp only [hvalid, if_true, true_iff, ne_eq, not_true_eq_false, false_implies, and_true]
      obtain ⟨h1, h2, h3, h4⟩ := hv.mp hvalid
      refine ⟨weighted.map Prod.snd, hw, ?_, hk ▸ h2, h3, h4⟩
      intro hnil
      subst hnil
      simp at hk
      exact h1 hk
    · simp only [hvalid, Bool.false_eq_true, if_false]
      refine ⟨⟨fun h => by simp at h, ?_⟩, fun _ => trivial⟩
      rintro ⟨weights, hw2, hne, hnodup, hpos, hsum⟩
      have hsnd : weighted.map Prod.snd = weights := by
        have := hw.symm.trans hw2
        exact (List.map_injective_iff.mpr (Option.some_injective _)) this
      exact (hvalid (hv.mpr ⟨by
          intro hnil
          subst hnil
          simp at hk
          exact hne hk, hk ▸ hnodup, hsnd ▸ hpos, hsnd ▸ hsum⟩)).elim

/-- C13, amended: for a `VoteWeighted` request whose voter decodes, on a proposal of the ledger
in its voting period, the options reach the vote ledger unchanged, and the request is accepted
if and
only if the options are not empty, name no option kind twice, and carry weights that read as
decimals, are all greater than 0 and sum to exactly 1 as rational numbers; every other such
request fails with `ErrInvalidVote`. So the split 0.6, 0.3, 0.05, 0.05 is accepted, and the
same kinds with 0.04 for `no_with_veto` (sum 0.99) fail with `ErrInvalidVote`. -/
theorem VoteWeighted_validation (params : GovParams) (sdk : Sdk Ledger) (ctx : Context Ledger)
    (msg : v1beta2.MsgVoteWeighted) (addr : AccAddress) (p : StoredProposal)
    (haddr : sdk.AccAddressFromBech32 msg.Voter = .ok addr)
    (hp : ctx.state.proposal? msg.ProposalId = some p) (hstatus : p.status = .VotingPeriod) :
    votesAdded (callsSince ctx ((ledgerServer params sdk).VoteWeighted ctx msg).2)
        = [(msg.ProposalId, addr, msg.Options)]
      ∧ (((ledgerServer params sdk).VoteWeighted ctx msg).1 = .ok {} ↔
          ∃ weights : List Dec,
            msg.Options.map (fun o => NewDecFromStr o.Weight) = weights.map some
              ∧ msg.Options ≠ [] ∧ (msg.Options.map (fun o => o.Option)).Nodup
              ∧ (∀ w ∈ weights, (0 : ℚ) < w.toRat) ∧ (weights.map Dec.toRat).sum = 1)
      ∧ (((ledgerServer params sdk).VoteWeighted ctx msg).1 ≠ .ok {} →
          ((ledgerServer params sdk).VoteWeighted ctx msg).1 = .error ErrInvalidVote)
      ∧ ((ledgerServer suiteParams ledgerSdk).VoteWeighted votingLedger
          ⟨1, "cosmos1val",
            [⟨v1beta2.OptionYes, "0.600000000000000000"⟩,
             ⟨v1beta2.OptionNo, "0.300000000000000000"⟩,
             ⟨v1beta2.OptionAbstain, "0.050000000000000000"⟩,
             ⟨v1beta2.OptionNoWithVeto, "0.050000000000000000"⟩]⟩).1 = .ok {}
      ∧ ((ledgerServer suiteParams ledgerSdk).VoteWeighted votingLedger
          ⟨1, "cosmos1val",
            [⟨v1beta2.OptionYes, "0.600000000000000000"⟩,
             ⟨v1beta2.OptionNo, "0.300000000000000000"⟩,
             ⟨v1beta2.OptionAbstain, "0.050000000000000000"⟩,
             ⟨v1beta2.OptionNoWithVeto, "0.040000000000000000"⟩]⟩).1
          = .error ErrInvalidVote := by
  refine ⟨?_, ?_, ?_, by decide, by decide⟩
  all_goals
    obtain ⟨hiff, hrej⟩ :=
      AddVote_voting_period ctx.state msg.ProposalId addr msg.Options p hp hstatus
    rcases hv : Ledger.AddVote ctx.state msg.ProposalId addr msg.Options with ⟨r, s⟩
    have hv2 : (ledgerServer params sdk).Keeper.AddVote ctx.state msg.ProposalId addr
        msg.Options = (r, s) := hv
    rw [VoteWeighted_of_address (ledgerServer params sdk) ctx msg addr r s haddr hv2]
    rw [hv] at hiff hrej
  · cases r <;> simp [callsSince, votesAdded]
  · rw [← hiff]
    cases r <;> simp
  · cases r with
    | none => simp
    | some e =>
      have := hrej (by simp)
      simp only [Prod.mk.injEq, Option.some.injEq] at this
      simp [this.1]

/-- Counterexample to C13 as stated: proposal 1 is in its voting period and the split of the
test suite is a valid list of options, but with the voter `wrong address` the handler returns
the error of the address decoder: the options are not passed to the vote ledger, and the vote
is not accepted. -/
theorem VoteWeighted_malformed_voter :
    (votingLedger.state.proposal? 1).map (fun p => p.status) = some ProposalStatus.VotingPeriod
      ∧ (parseOptions
          [⟨v1beta2.OptionYes, "0.600000000000000000"⟩,
           ⟨v1beta2.OptionNo, "0.300000000000000000"⟩,
           ⟨v1beta2.OptionAbstain, "0.050000000000000000"⟩,
           ⟨v1beta2.OptionNoWithVeto, "0.050000000000000000"⟩]).map validOptions = some true
      ∧ ((ledgerServer suiteParams ledgerSdk).VoteWeighted votingLedger
          ⟨1, "wrong address",
            [⟨v1beta2.OptionYes, "0.600000000000000000"⟩,
             ⟨v1beta2.OptionNo, "0.300000000000000000"⟩,
             ⟨v1beta2.OptionAbstain, "0.050000000000000000"⟩,
             ⟨v1beta2.OptionNoWithVeto, "0.050000000000000000"⟩]⟩).1
          = .error (.other "undefined" 1 "decoding bech32 failed")
      ∧ votesAdded (callsSince votingLedger
          ((ledgerServer suiteParams ledgerSdk).VoteWeighted votingLedger
            ⟨1, "wrong address",
              [⟨v1beta2.OptionYes, "0.600000000000000000"⟩,
               ⟨v1beta2.OptionNo, "0.300000000000000000"⟩,
               ⟨v1beta2.OptionAbstain, "0.050000000000000000"⟩,
               ⟨v1beta2.OptionNoWithVeto, "0.050000000000000000"⟩]⟩).2) = []
      ∧ ((ledgerServer suiteParams ledgerSdk).VoteWeighted votingLedger
          ⟨1, "wrong address",
            [⟨v1beta2.OptionYes, "0.600000000000000000"⟩,
             ⟨v1beta2.OptionNo, "0.300000000000000000"⟩,
             ⟨v1beta2.OptionAbstain, "0.050000000000000000"⟩,
             ⟨v1beta2.OptionNoWithVeto, "0.050000000000000000"⟩]⟩).2.state.votes = [] := by
  decide

/-- Witness of C13 on the ledger with proposal 1 in its voting period: the split of the test
suite reaches the vote ledger unchanged. -/
theorem VoteWeighted_validation_witness :
    votesAdded (callsSince votingLedger ((ledgerServer suiteParams ledgerSdk).VoteWeighted
        votingLedger
        ⟨1, "cosmos1val",
          [⟨v1beta2.OptionYes, "0.600000000000000000"⟩,
           ⟨v1beta2.OptionNo, "0.300000000000000000"⟩,
           ⟨v1beta2.OptionAbstain, "0.050000000000000000"⟩,
           ⟨v1beta2.OptionNoWithVeto, "0.050000000000000000"⟩]⟩).2)
      = [(1, valAddress,
          [⟨v1beta2.OptionYes, "0.600000000000000000"⟩,
           ⟨v1beta2.OptionNo, "0.300000000000000000"⟩,
           ⟨v1beta2.OptionAbstain, "0.050000000000000000"⟩,
           ⟨v1beta2.OptionNoWithVeto, "0.050000000000000000"⟩])] :=
  (VoteWeighted_validation suiteParams ledgerSdk votingLedger
    ⟨1, "cosmos1val",
      [⟨v1beta2.OptionYes, "0.600000000000000000"⟩,
       ⟨v1beta2.OptionNo, "0.300000000000000000"⟩,
       ⟨v1beta2.OptionAbstain, "0.050000000000000000"⟩,
       ⟨v1beta2.OptionNoWithVeto, "0.050000000000000000"⟩]⟩
    valAddress
    ⟨1, [.ExecLegacyContent ⟨some textContent, "cosmos1gov"⟩], [], .VotingPeriod, 1000,
      172800000001000, some 1000, some 172800000001000, [⟨"stake", 10000000⟩], none⟩
    (by decide) (by decide) (by decide)).1

/-! ## Missing proposals -/

/-- Counterexample to C16 as stated: proposal 10 is not in the ledger, and a vote on it by
`wrong address` fails with the error of the address decoder, not with `ErrUnknownProposal`;
the vote ledger is not called. -/
theorem missing_proposal_malformed_voter :
    votingLedger.state.proposal? 10 = none
      ∧ ((ledgerServer suiteParams ledgerSdk).Vote votingLedger
          ⟨10, "wrong address", v1beta2.OptionYes⟩).1
          = .error (.other "undefined" 1 "decoding bech32 failed")
      ∧ ((ledgerServer suiteParams ledgerSdk).Vote votingLedger
          ⟨10, "wrong address", v1beta2.OptionYes⟩).1 ≠ .error ErrUnknownProposal
      ∧ votesAdded (callsSince votingLedger ((ledgerServer suiteParams ledgerSdk).Vote
          votingLedger ⟨10, "wrong address", v1beta2.OptionYes⟩).2) = [] := by
  decide

/-- C16, amended: for a `Vote`, `VoteWeighted` or `Deposit` request whose voter or depositor
decodes and whose proposal id is not in the proposal ledger, the handler returns the
`ErrUnknownProposal` of the vote ledger or deposit engine as it is, without wrapping it (its
code is 2), leaves the state as it was, and emits no event. -/
theorem missing_proposal_rejected (params : GovParams) (sdk : Sdk Ledger)
    (ctx : Context Ledger) :
    (∀ (msg : v1beta2.MsgVote) (addr : AccAddress),
        sdk.AccAddressFromBech32 msg.Voter = .ok addr →
        ctx.state.proposal? msg.ProposalId = none →
        ((ledgerServer params sdk).Vote ctx msg).1 = .error ErrUnknownProposal
          ∧ ((ledgerServer params sdk).Vote ctx msg).2.state = ctx.state
          ∧ emittedEvents (callsSince ctx ((ledgerServer params sdk).Vote ctx msg).2) = [])
      ∧ (∀ (msg : v1beta2.MsgVoteWeighted) (addr : AccAddress),
        sdk.AccAddressFromBech32 msg.Voter = .ok addr →
        ctx.state.proposal? msg.ProposalId = none →
        ((ledgerServer params sdk).VoteWeighted ctx msg).1 = .error ErrUnknownProposal
          ∧ ((ledgerServer params sdk).VoteWeighted ctx msg).2.state = ctx.state
          ∧ emittedEvents (callsSince ctx ((ledgerServer params sdk).VoteWeighted ctx msg).2)
              = [])
      ∧ (∀ (msg : v1beta2.MsgDeposit) (addr : AccAddress),
        sdk.AccAddressFromBech32 msg.Depositor = .ok addr →
        ctx.state.proposal? msg.ProposalId = none →
        ((ledgerServer params sdk).Deposit ctx msg).1 = .error ErrUnknownProposal
          ∧ ((ledgerServer params sdk).Deposit ctx msg).2.state = ctx.state
          ∧ emittedEvents (callsSince ctx ((ledgerServer params sdk).Deposit ctx msg).2) = [])
      ∧ ErrUnknownProposal = Error.other "gov" 2 "unknown proposal"
      ∧ ErrUnknownProposal.Cause = ErrUnknownProposal := by
  refine ⟨fun msg addr haddr hp => ?_, fun msg addr haddr hp => ?_,
    fun msg addr haddr hp => ?_, rfl, rfl⟩
  · have hv : (ledgerServer params sdk).Keeper.AddVote ctx.state msg.ProposalId addr
        (v1beta2.NewNonSplitVoteOption msg.Option) = (some ErrUnknownProposal, ctx.state) := by
      simp [ledgerServer, ledgerKeeper, Ledger.AddVote, hp]
    rw [Vote_of_address (ledgerServer params sdk) ctx msg addr _ _ haddr hv]
    simp [callsSince, emittedEvents]
  · have hv : (ledgerServer params sdk).Keeper.AddVote ctx.state msg.ProposalId addr
        msg.Options = (some ErrUnknownProposal, ctx.state) := by
      simp [ledgerServer, ledgerKeeper, Ledger.AddVote, hp]
    rw [VoteWeighted_of_address (ledgerServer params sdk) ctx msg addr _ _ haddr hv]
    simp [callsSince, emittedEvents]
  · have hd : (ledgerServer params sdk).Keeper.AddDeposit ctx.state msg.ProposalId addr
        msg.Amount = (.error ErrUnknownProposal, ctx.state) := by
      simp [ledgerServer, ledgerKeeper, Ledger.AddDeposit, hp]
    rw [Deposit_of_address (ledgerServer params sdk) ctx msg addr _ _ haddr hd]
    simp [callsSince, emittedEvents]

/-- Witness of C16: a vote by the validator on the missing proposal 10. -/
theorem missing_proposal_rejected_witness :
    ((ledgerServer suiteParams ledgerSdk).Vote votingLedger
        ⟨10, "cosmos1val", v1beta2.OptionYes⟩).1 = .error (.other "gov" 2 "unknown proposal") :=
  ((missing_proposal_rejected suiteParams ledgerSdk votingLedger).1
    ⟨10, "cosmos1val", v1beta2.OptionYes⟩ valAddress (by decide) (by decide)).1

/-! ## A failing `SubmitProposal` and the transaction around it -/

/-- A `SubmitProposal` call that fails after the keeper has stored the proposal and the proposal
has been serialized fails with the error of the deposit engine, and it leaves the state that
the deposit engine left. -/
theorem SubmitProposal_deposit_error (k : msgServer σ) (ctx : Context σ)
    (msg : v1beta2.MsgSubmitProposal) (msgs : List v1beta2.Msg) (proposal : v1beta2.Proposal)
    (s : σ) (bytes : List Nat) (e : Error)
    (hmsgs : msg.GetMsgs = .ok msgs)
    (hstore : k.Keeper.SubmitProposal ctx.state msgs msg.Metadata = (.ok proposal, s))
    (hbytes : k.sdk.Marshal proposal = .ok bytes)
    (herr : (k.SubmitProposal ctx msg).1 = .error e) :
    (k.Keeper.AddDeposit
          (k.sdk.ConsumeGas s (mulUint64 (mulUint64 3 k.sdk.WriteCostPerByte) bytes.length)
            "submit proposal")
          proposal.ProposalId (k.sdk.addressIgnoringError msg.Proposer) msg.InitialDeposit).1
        = .error e
      ∧ (k.SubmitProposal ctx msg).2 =
        ⟨(k.Keeper.AddDeposit
            (k.sdk.ConsumeGas s (mulUint64 (mulUint64 3 k.sdk.WriteCostPerByte) bytes.length)
              "submit proposal")
            proposal.ProposalId (k.sdk.addressIgnoringError msg.Proposer)
            msg.InitialDeposit).2,
         ctx.calls ++ [Call.SubmitProposal msgs msg.Metadata,
           Call.ConsumeGas (mulUint64 (mulUint64 3 k.sdk.WriteCostPerByte) bytes.length)
             "submit proposal",
           Call.AddDeposit proposal.ProposalId (k.sdk.addressIgnoringError msg.Proposer)
             msg.InitialDeposit]⟩ := by
  rw [SubmitProposal_of_msgs k ctx msg msgs _ s hmsgs hstore] at herr ⊢
  simp only [hbytes] at herr ⊢
  rcases hd : k.Keeper.AddDeposit
      (k.sdk.ConsumeGas s (mulUint64 (mulUint64 3 k.sdk.WriteCostPerByte) bytes.length)
        "submit proposal")
      proposal.ProposalId (k.sdk.addressIgnoringError msg.Proposer) msg.InitialDeposit
    with ⟨r2, s2⟩
  rw [hd] at herr
  cases r2 with
  | error err =>
    simp only [Except.error.injEq] at herr
    subst herr
    exact ⟨rfl, rfl⟩
  | ok v => simp at herr

/-- C12: a `SubmitProposal` call, run as the all-or-nothing transaction of the spec, that
returns an error returns the error of the handler and leaves the context it was given: the
state behind it, with the proposal ledger, the deposit ledger and the id counter, is exactly
as before the call, for every keeper. In particular, when the keeper has allocated and stored
the proposal and the deposit engine then rejects the initial deposit, the handler itself
returns with the state the deposit engine left, and the transaction discards it. A call that
succeeds keeps what the handler wrote. -/
theorem SubmitProposal_atomic (k : msgServer σ) (ctx : Context σ)
    (msg : v1beta2.MsgSubmitProposal) :
    (∀ e, (k.SubmitProposal ctx msg).1 = .error e →
        runAtomically k.SubmitProposal ctx msg = (.error e, ctx))
      ∧ (∀ r, (k.SubmitProposal ctx msg).1 = .ok r →
        runAtomically k.SubmitProposal ctx msg = k.SubmitProposal ctx msg)
      ∧ (∀ (msgs : List v1beta2.Msg) (proposal : v1beta2.Proposal) (s : σ) (bytes : List Nat)
          (e : Error),
        msg.GetMsgs = .ok msgs →
        k.Keeper.SubmitProposal ctx.state msgs msg.Metadata = (.ok proposal, s) →
        k.sdk.Marshal proposal = .ok bytes →
        (k.Keeper.AddDeposit
            (k.sdk.ConsumeGas s (mulUint64 (mulUint64 3 k.sdk.WriteCostPerByte) bytes.length)
              "submit proposal")
            proposal.ProposalId (k.sdk.addressIgnoringError msg.Proposer)
            msg.InitialDeposit).1 = .error e →
        (k.SubmitProposal ctx msg).1 = .error e
          ∧ (k.SubmitProposal ctx msg).2.state =
            (k.Keeper.AddDeposit
              (k.sdk.ConsumeGas s (mulUint64 (mulUint64 3 k.sdk.WriteCostPerByte) bytes.length)
                "submit proposal")
              proposal.ProposalId (k.sdk.addressIgnoringError msg.Proposer)
              msg.InitialDeposit).2
          ∧ runAtomically k.SubmitProposal ctx msg = (.error e, ctx))
      ∧ (∀ (kl : msgServer Ledger) (c : Context Ledger) (m : v1beta2.MsgSubmitProposal)
          (e : Error),
        (kl.SubmitProposal c m).1 = .error e →
        (runAtomically kl.SubmitProposal c m).2.state.proposals = c.state.proposals
          ∧ (runAtomically kl.SubmitProposal c m).2.state.deposits = c.state.deposits
          ∧ (runAtomically kl.SubmitProposal c m).2.state.next_id = c.state.next_id) := by
  have hfail : ∀ {τ : Type} (kk : msgServer τ) (c : Context τ) (m : v1beta2.MsgSubmitProposal)
      (e : Error), (kk.SubmitProposal c m).1 = .error e →
      runAtomically kk.SubmitProposal c m = (.error e, c) := by
    intro τ kk c m e h
    rcases hr : kk.SubmitProposal c m with ⟨r, c1⟩
    rw [hr] at h
    simp only at h
    subst h
    simp [runAtomically, hr]
  refine ⟨fun e h => hfail k ctx msg e h, fun r h => ?_,
    fun msgs proposal s bytes e hm hs hb hd => ?_, fun kl c m e h => ?_⟩
  · rcases hr : k.SubmitProposal ctx msg with ⟨r1, c1⟩
    rw [hr] at h
    simp only at h
    subst h
    simp [runAtomically, hr]
  · have hres : (k.SubmitProposal ctx msg).1 = .error e := by
      rw [SubmitProposal_of_msgs k ctx msg msgs _ s hm hs]
      simp only [hb]
      rcases hd2 : k.Keeper.AddDeposit
          (k.sdk.ConsumeGas s (mulUint64 (mulUint64 3 k.sdk.WriteCostPerByte) bytes.length)
            "submit proposal")
          proposal.ProposalId (k.sdk.addressIgnoringError msg.Proposer) msg.InitialDeposit
        with ⟨r2, s2⟩
      rw [hd2] at hd
      simp only at hd
      subst hd
      rfl
    obtain ⟨_, hout⟩ := SubmitProposal_deposit_error k ctx msg msgs proposal s bytes e hm hs hb
      hres
    exact ⟨hres, by rw [hout], hfail k ctx msg e hres⟩
  · rw [hfail kl c m e h]
    exact ⟨rfl, rfl, rfl⟩

/-- Witness of C12 on the small chain, over the keeper that refuses the empty depositor: the
proposer `wrong address` does not decode, the deposit is refused after proposal 1 has been
stored, the handler returns with the id counter at 2, and the transaction leaves the context
as it was. -/
theorem SubmitProposal_atomic_witness :
    (guardedServer.SubmitProposal chainCtx
        ⟨[some (.ExecLegacyContent ⟨some textContent, "cosmos1gov"⟩)], [⟨"stake", 10000000⟩],
          "wrong address", []⟩).2.state.nextId = 2
      ∧ chainCtx.state.nextId = 1
      ∧ runAtomically guardedServer.SubmitProposal chainCtx
          ⟨[some (.ExecLegacyContent ⟨some textContent, "cosmos1gov"⟩)], [⟨"stake", 10000000⟩],
            "wrong address", []⟩
        = (.error (.other "sdk" 7 "invalid address"), chainCtx) :=
  ⟨by decide, by decide,
   ((SubmitProposal_atomic guardedServer chainCtx
      ⟨[some (.ExecLegacyContent ⟨some textContent, "cosmos1gov"⟩)], [⟨"stake", 10000000⟩],
        "wrong address", []⟩).2.2.1
      [.ExecLegacyContent ⟨some textContent, "cosmos1gov"⟩]
      ⟨1, [.ExecLegacyContent ⟨some textContent, "cosmos1gov"⟩], []⟩ ⟨2, [], 0, []⟩ [1, 0]
      (.other "sdk" 7 "invalid address")
      (by decide) (by decide) (by decide) (by decide)).2.2⟩
